import Mathlib

/-!
Verification of the TRADINGAPP portfolio valuation and reconciliation engine.

This file shallowly embeds the core numeric and stateful logic of the
repository (`backend/app/utils/zerodha_charges.py`, `backend/app/utils/xirr.py`,
`backend/app/models/trade.py`, `backend/app/services/snapshot_service.py`,
`backend/app/services/sync_service.py`) and settles the frozen claims about it.

Modelling conventions:
* Python floats are idealised as exact rationals (`ℚ`); the XIRR root
  finder, which genuinely needs real exponentiation `(1+r)^(days/365)`,
  is idealised over `ℝ` with `Real.rpow`.
* Dates are day numbers (`ℤ`); `days_between` is subtraction.
* Nullable database columns are `Option` fields; Python truthiness of a
  nullable number (`if x:`) is `x ≠ None ∧ x ≠ 0`.
* A Python `TypeError` raised by arithmetic on `None` is modelled by
  `Except Unit`; code paths that cannot raise are plain functions.
-/

namespace TradingApp

/-- Python exceptions (only `TypeError` from `None` arithmetic is reachable
in the modelled code) are collapsed to a unit error. -/
abbrev Py (α : Type) := Except Unit α

/-- Truthiness of a nullable numeric column: `None` and `0` are falsy. -/
def truthyQ : Option ℚ → Bool
  | some v => !(v == 0)
  | none => false

/-- Truthiness of a nullable string column: `None` and `""` are falsy. -/
def truthyStr : Option String → Bool
  | some s => !(s == "")
  | none => false

/-- Python `round(x, 2)`: round `100*x` to the nearest integer, ties to
even (banker's rounding, as Python's `round` does), then divide by 100. -/
def round2 (x : ℚ) : ℚ :=
  let y : ℚ := 100 * x
  let n : ℤ := ⌊y⌋
  let frac : ℚ := y - n
  let r : ℤ :=
    if frac < 1/2 then n
    else if 1/2 < frac then n + 1
    else if Even n then n else n + 1
  (r : ℚ) / 100

/-! ## Charge calculator (`zerodha_charges.py`) -/

/-- `zerodha_intraday_charges(buy_price, sell_price, qty)`. -/
def zerodha_intraday_charges (buy_price sell_price : ℚ) (qty : ℤ) : ℚ :=
  let buy_turnover := buy_price * qty
  let sell_turnover := sell_price * qty
  let turnover := buy_turnover + sell_turnover
  let brokerage := min (3/10000 * turnover) 20
  let stt := 25/100000 * sell_turnover
  let exchange := 345/10000000 * turnover
  let sebi := 1/1000000 * turnover
  let stamp := 3/100000 * buy_turnover
  let gst := 18/100 * (brokerage + exchange + sebi)
  round2 (brokerage + stt + exchange + sebi + stamp + gst)

/-- `zerodha_delivery_charges(buy_price, sell_price, qty)`. -/
def zerodha_delivery_charges (buy_price sell_price : ℚ) (qty : ℤ) : ℚ :=
  let buy_turnover := buy_price * qty
  let sell_turnover := sell_price * qty
  let turnover := buy_turnover + sell_turnover
  let stt := 1/1000 * turnover
  let exchange := 345/10000000 * turnover
  let sebi := 1/1000000 * turnover
  let stamp := 15/100000 * buy_turnover
  let gst := 18/100 * (exchange + sebi)
  round2 (stt + exchange + sebi + stamp + gst)

/-- Product type of a trade: `"MIS"` (intraday) or `"CNC"` (delivery). -/
inductive Product
  | MIS
  | CNC
deriving DecidableEq

/-- Round-trip total charges for a product (the dispatch both
`calculate_buy_charges` and `calculate_sell_charges` perform on
`product.upper()`). -/
def roundTripCharges (product : Product) (buy_price sell_price : ℚ) (qty : ℤ) : ℚ :=
  match product with
  | .MIS => zerodha_intraday_charges buy_price sell_price qty
  | .CNC => zerodha_delivery_charges buy_price sell_price qty

/-- `calculate_buy_charges(buy_price, qty, product)`: half of a same-price
round trip. -/
def calculate_buy_charges (buy_price : ℚ) (qty : ℤ) (product : Product) : ℚ :=
  round2 (roundTripCharges product buy_price buy_price qty / 2)

/-- `calculate_sell_charges(buy_price, sell_price, qty, product, buy_charges)`:
round-trip total minus the recorded buy charge when that is positive and the
difference is non-negative; otherwise the 50/50 split of the total. -/
def calculate_sell_charges (buy_price sell_price : ℚ) (qty : ℤ)
    (product : Product) (buy_charges : ℚ) : ℚ :=
  let total_charges := roundTripCharges product buy_price sell_price qty
  let sell_charges :=
    if 0 < buy_charges then
      if total_charges - buy_charges < 0 then round2 (total_charges / 2)
      else total_charges - buy_charges
    else round2 (total_charges / 2)
  round2 sell_charges

/-! ## Data model (`models/trade.py`, `models/payin.py`,
`models/portfolio_snapshot.py`, `models/snapshot_symbol_price.py`)

Columns declared `nullable=False` become plain fields; columns that are
nullable in the schema (everything declared without `nullable=False`,
including `buy_charges` and `sell_charges`, which only have a *default*
of 0.0) become `Option` fields. -/

/-- `TradeStatus` enumeration. -/
inductive TradeStatus
  | OPEN
  | CLOSED
deriving DecidableEq

/-- Python `str.upper()` (ASCII), written over the character list so that
it computes by kernel reduction; semantically `String.toUpper`. -/
def pyUpper (s : String) : String := ⟨s.data.map Char.toUpper⟩

/-- A row of the `trades` table (fields the core logic reads). -/
structure Trade where
  symbol : String
  buy_date : ℤ
  buy_price : ℚ
  quantity : ℤ
  buy_amount : ℚ
  buy_charges : Option ℚ
  sell_date : Option ℤ
  sell_price : Option ℚ
  sell_amount : Option ℚ
  sell_charges : Option ℚ
  status : TradeStatus
  zerodha_user_id : Option String
  current_price : Option ℚ
  last_synced_at : Option ℤ
  day_change : Option ℚ
  day_change_percentage : Option ℚ
deriving DecidableEq

/-- A row of the `payins` table. -/
structure Payin where
  payin_date : ℤ
  amount : ℚ
  number_of_shares : Option ℚ
  zerodha_user_id : Option String
deriving DecidableEq

/-- A row of the `snapshot_symbol_prices` table. -/
structure SnapshotSymbolPrice where
  symbol : String
  ltp : ℚ
  snapshot_taken_at : ℤ
deriving DecidableEq

/-- The computed metrics dictionary returned by
`calculate_portfolio_metrics`.  All fields are exact rationals except
`xirr`, which may come out of the real-valued root finder. -/
structure Metrics where
  nav : ℚ
  portfolio_value : ℚ
  total_payin : ℚ
  booked_pl : ℚ
  float_pl : ℚ
  open_positions : ℚ
  balance : ℚ
  utilisation_percent : ℚ
  xirr : ℝ
  absolute_profit_percent : ℚ

/-- A row of the `portfolio_snapshots` table. -/
structure PortfolioSnapshot where
  snapshot_date : ℤ
  nav : ℚ
  portfolio_value : ℚ
  total_payin : ℚ
  booked_pl : ℚ
  float_pl : ℚ
  open_positions : ℚ
  balance : ℚ
  utilisation_percent : ℚ
  xirr : ℝ
  absolute_profit_percent : ℚ
  zerodha_user_id : Option String
  trading_strategy : Option String

/-- The database state the core services read and write. -/
structure DBState where
  trades : List Trade
  payins : List Payin
  snapshots : List PortfolioSnapshot
  prices : List SnapshotSymbolPrice

/-- `Trade.calculate_profit_loss` (`models/trade.py`).  The very first
statement `total_buy = self.buy_amount + self.buy_charges` raises a
`TypeError` when `buy_charges` is NULL, before any branch is taken;
likewise `- self.sell_charges` raises on a NULL `sell_charges` in the
closed branch.  A falsy (`None` or `0`) `sell_price` on a CLOSED trade,
or a falsy `current_price` on an OPEN trade, falls through to
`return None`. -/
def calculate_profit_loss (t : Trade) : Py (Option ℚ) :=
  match t.buy_charges with
  | none => .error ()
  | some bc =>
    let total_buy := t.buy_amount + bc
    match t.status, t.sell_price with
    | .CLOSED, some sp =>
      if sp = 0 then .ok none
      else
        match t.sell_charges with
        | none => .error ()
        | some sc =>
          let total_sell :=
            match t.sell_amount with
            | none => sp * (t.quantity : ℚ) - sc
            | some sa => sa - sc
          .ok (some (total_sell - total_buy))
    | .CLOSED, none => .ok none
    | .OPEN, _ =>
      match t.current_price with
      | none => .ok none
      | some cp =>
        if cp = 0 then .ok none
        else .ok (some (cp * (t.quantity : ℚ) - total_buy))

/-! ## Metrics engine (`snapshot_service.calculate_portfolio_metrics`) -/

/-- Resolution of `account_ids` / `zerodha_user_id` into the list of
account ids to filter by (`if account_ids: ... elif zerodha_user_id: ...
else: []`); Python truthiness makes `[]`, `None` and `""` all falsy. -/
def targetAccountIds (zuid : Option String) (accountIds : Option (List String)) : List String :=
  match accountIds with
  | some (a :: rest) => a :: rest
  | _ =>
    match zuid with
    | some u => if u = "" then [] else [u]
    | none => []

/-- SQL `Payin.zerodha_user_id.in_(target)`: a NULL user id never matches. -/
def uidInTarget (uid : Option String) (target : List String) : Bool :=
  match uid with
  | some u => target.contains u
  | none => false

/-- The payin query: `payin_date <= snapshot_date`, plus the account
filter when the target list is non-empty. -/
def scopedPayins (payins : List Payin) (d : ℤ) (target : List String) : List Payin :=
  payins.filter (fun p =>
    decide (p.payin_date ≤ d) && (target.isEmpty || uidInTarget p.zerodha_user_id target))

/-- The trade query: `buy_date <= snapshot_date`, plus the account filter
when the target list is non-empty. -/
def scopedTrades (trades : List Trade) (d : ℤ) (target : List String) : List Trade :=
  trades.filter (fun t =>
    decide (t.buy_date ≤ d) && (target.isEmpty || uidInTarget t.zerodha_user_id target))

/-- `trade.sell_date and trade.sell_date <= snapshot_date` (a non-NULL
date object is always truthy). -/
def sellDateLE (t : Trade) (d : ℤ) : Bool :=
  match t.sell_date with
  | some sd => decide (sd ≤ d)
  | none => false

/-- The booked-P/L loop: for CLOSED trades sold on or before the snapshot
date, accumulate `calculate_profit_loss()` when it is not `None`
(a `None` contributes 0 by being skipped); a raised `TypeError`
propagates.  Written as structural recursion; the accumulation order
differs from the Python `+=` loop only up to commutativity of `+`. -/
def bookedPlCalc (trades : List Trade) (d : ℤ) : Py ℚ :=
  match trades with
  | [] => .ok 0
  | t :: rest =>
    if t.status == .CLOSED && sellDateLE t d then
      match calculate_profit_loss t with
      | .error e => .error e
      | .ok pl =>
        match bookedPlCalc rest d with
        | .error e => .error e
        | .ok b => .ok (pl.getD 0 + b)
    else bookedPlCalc rest d

/-- The open-trades loop: accumulates
`invested_amount = buy_price * quantity` (the Python
`(trade.buy_price or 0) * (trade.quantity or 0)`; both columns are
non-nullable) into `open_positions`, and `calculate_profit_loss()` into
`float_pl` (`None` contributes 0); a raised `TypeError` propagates.
Returns `(float_pl, open_positions)`. -/
def floatOpenCalc (trades : List Trade) : Py (ℚ × ℚ) :=
  match trades with
  | [] => .ok (0, 0)
  | t :: rest =>
    if t.status = .OPEN then
      match calculate_profit_loss t with
      | .error e => .error e
      | .ok pl =>
        match floatOpenCalc rest with
        | .error e => .error e
        | .ok fo => .ok (pl.getD 0 + fo.1, t.buy_price * (t.quantity : ℚ) + fo.2)
    else floatOpenCalc rest

/-! ## XIRR solver (`utils/xirr.py`)

Python float arithmetic is idealised over `ℝ`; `(1 + rate) ** years`
is `Real.rpow`.  Dates enter as day numbers, so the string/datetime
conversion paths of the source are identities here. -/

/-- The solver tolerance, `1e-6`. -/
noncomputable def tolXirr : ℝ := 1 / 1000000

/-- `min(date_objects)`: the reference date. -/
def firstDate : List ℤ → ℤ
  | [] => 0
  | d :: ds => ds.foldl min d

/-- `present_value(rate)`: `Σ cfᵢ / (1+rate) ** ((dᵢ − first)/365)`. -/
noncomputable def presentValue (cfs : List ℚ) (ds : List ℤ) (first : ℤ) (rate : ℝ) : ℝ :=
  ((cfs.zip ds).map (fun p =>
    (p.1 : ℝ) / (1 + rate) ^ (((p.2 - first : ℤ) : ℝ) / 365))).sum

/-- `present_value_derivative(rate)`:
`Σ −(yearsᵢ · cfᵢ) / (1+rate) ** (yearsᵢ + 1)`. -/
noncomputable def presentValueDeriv (cfs : List ℚ) (ds : List ℤ) (first : ℤ) (rate : ℝ) : ℝ :=
  ((cfs.zip ds).map (fun p =>
    -((((p.2 - first : ℤ) : ℝ) / 365) * (p.1 : ℝ)) /
      (1 + rate) ^ ((((p.2 - first : ℤ) : ℝ) / 365) + 1))).sum

open scoped Classical in
/-- The Newton–Raphson loop (`for i in range(100)` with two `return`
points and two `break` points; `none` means "fell through to
bisection"). -/
noncomputable def newtonLoop (pv pvd : ℝ → ℝ) : ℕ → ℝ → Option ℝ
  | 0, _ => none
  | fuel + 1, rate =>
    if |pv rate| < tolXirr then some rate
    else if |pvd rate| < tolXirr then none
    else
      let new_rate := rate - pv rate / pvd rate
      if new_rate < -(99/100) ∨ new_rate > 10 then none
      else if |new_rate - rate| < tolXirr then some new_rate
      else newtonLoop pv pvd fuel new_rate

open scoped Classical in
/-- The bisection loop on `[-0.99, 10]` (`for i in range(100)`; updates
one endpoint to the midpoint, then returns the midpoint once the
interval is narrower than the tolerance; `none` after 100 iterations). -/
noncomputable def bisectLoop (pv : ℝ → ℝ) : ℕ → ℝ → ℝ → Option ℝ
  | 0, _, _ => none
  | fuel + 1, low, high =>
    let mid := (low + high) / 2
    if |pv mid| < tolXirr then some mid
    else
      let low' := if pv mid > 0 then mid else low
      let high' := if pv mid > 0 then high else mid
      if high' - low' < tolXirr then some mid
      else bisectLoop pv fuel low' high'

/-- `calculate_xirr(cash_flows, dates, guess)` (`utils/xirr.py`). -/
noncomputable def calculate_xirr (cash_flows : List ℚ) (dates : List ℤ)
    (guess : ℝ := 1/10) : Option ℝ :=
  if cash_flows.isEmpty || dates.isEmpty || !(cash_flows.length == dates.length) then none
  else if cash_flows.length < 2 then none
  else
    let first := firstDate dates
    let pv := presentValue cash_flows dates first
    let pvd := presentValueDeriv cash_flows dates first
    match newtonLoop pv pvd 100 guess with
    | some r => some r
    | none => bisectLoop pv 100 (-(99/100)) 10

/-- `calculate_portfolio_xirr(payins, current_value, current_date)`:
flows are `−amount` per payin with truthy amount and date (a date object
is always truthy here), plus a final `+current_value` dated
`current_date`; needs ≥ 2 valid flows; the result is a percentage.
The NaN/infinity filters of the source are identities over `ℚ`/`ℝ`. -/
noncomputable def calculate_portfolio_xirr (payins : List Payin)
    (current_value : ℚ) (current_date : ℤ) : Option ℝ :=
  if payins.isEmpty then none
  else
    let flows := (payins.filterMap (fun p =>
        if p.amount = 0 then none else some (-p.amount, p.payin_date)))
      ++ [(current_value, current_date)]
    if flows.length < 2 then none
    else
      match calculate_xirr (flows.map Prod.fst) (flows.map Prod.snd) (1/10) with
      | some r => some (r * 100)
      | none => none

/-- `calculate_portfolio_metrics(db, snapshot_date, zerodha_user_id,
account_ids)` (`snapshot_service.py`).  A `TypeError` raised by
`calculate_profit_loss` on a malformed row propagates (the only `try`
in the function wraps just the XIRR block, whose model is total). -/
noncomputable def calculate_portfolio_metrics (db : DBState) (snapshot_date : ℤ)
    (zuid : Option String) (accountIds : Option (List String)) : Py Metrics :=
  let target := targetAccountIds zuid accountIds
  let payins := scopedPayins db.payins snapshot_date target
  let total_payin : ℚ := (payins.map (·.amount)).sum
  let total_shares : ℚ := (payins.map (fun p => p.number_of_shares.getD 0)).sum
  let trades := scopedTrades db.trades snapshot_date target
  match bookedPlCalc trades snapshot_date with
  | .error e => .error e
  | .ok booked_pl =>
    match floatOpenCalc trades with
    | .error e => .error e
    | .ok (float_pl, open_positions) =>
      let total_portfolio_value := total_payin + booked_pl + float_pl
      let nav := if total_shares > 0 then total_portfolio_value / total_shares
                 else total_portfolio_value
      let balance := total_payin + booked_pl - open_positions
      let available_capital := total_payin + max 0 booked_pl
      let utilisation_percent :=
        if available_capital > 0 then open_positions / available_capital * 100 else 0
      let fallbackSimple : ℚ :=
        if total_payin > 0 then (booked_pl + float_pl) / total_payin * 100 else 0
      let payin_list := payins.filter (fun p => !(p.amount == 0))
      let xirr : ℝ :=
        if !payins.isEmpty ∧ total_portfolio_value > 0 then
          if !payin_list.isEmpty then
            match calculate_portfolio_xirr payin_list total_portfolio_value snapshot_date with
            | some v => v
            | none => (fallbackSimple : ℝ)
          else (fallbackSimple : ℝ)
        else if total_payin > 0 then (((booked_pl + float_pl) / total_payin * 100 : ℚ) : ℝ)
        else 0
      let absolute_profit_percent :=
        if total_payin > 0 then (total_portfolio_value - total_payin) / total_payin * 100
        else 0
      .ok {
        nav := nav
        portfolio_value := total_portfolio_value
        total_payin := total_payin
        booked_pl := booked_pl
        float_pl := float_pl
        open_positions := open_positions
        balance := balance
        utilisation_percent := utilisation_percent
        xirr := xirr
        absolute_profit_percent := absolute_profit_percent }

/-! ## Snapshot materializer (`snapshot_service._store_symbol_ltps`,
`snapshot_service.create_snapshot`) -/

/-- The SQL filter of `_store_symbol_ltps`: OPEN trades with a non-NULL
positive `current_price` (the `symbol.isnot(None)` filter is vacuous
here, the column being non-nullable). -/
def eligibleOpen (trades : List Trade) : List Trade :=
  trades.filter (fun t =>
    t.status == .OPEN &&
      (match t.current_price with
       | some cp => decide (0 < cp)
       | none => false))

/-- Distinct group keys in first-occurrence order (the SQL `GROUP BY
Trade.symbol`). -/
def uniqueKeys : List String → List String
  | [] => []
  | s :: rest => s :: uniqueKeys (rest.filter (fun x => !(x == s)))
termination_by l => l.length
decreasing_by
  exact Nat.lt_succ_of_le (List.length_filter_le _ _)

/-- `MAX(Trade.current_price)` over the group of a symbol. -/
def groupMax (trades : List Trade) (s : String) : ℚ :=
  match (trades.filter (fun t => t.symbol == s)).filterMap (·.current_price) with
  | [] => 0
  | p :: ps => ps.foldl max p

/-- The `(symbol, max_price)` result rows of the aggregation query. -/
def symbolLtpPairs (trades : List Trade) : List (String × ℚ) :=
  (uniqueKeys ((eligibleOpen trades).map (·.symbol))).map
    (fun s => (s, groupMax (eligibleOpen trades) s))

/-- Python dict assignment `d[k] = v`: replace the value in place if the
key is present (dicts keep first-insertion order), else append. -/
def dictInsert (m : List (String × ℚ)) (k : String) (v : ℚ) : List (String × ℚ) :=
  if m.any (fun kv => kv.1 == k) then
    m.map (fun kv => if kv.1 == k then (k, v) else kv)
  else m ++ [(k, v)]

/-- Building `symbol_ltp_map`: keys are upper-cased in Python after the
SQL grouping, entries with a falsy upper-cased symbol or falsy max price
are skipped, and a later case-variant of the same symbol overwrites an
earlier one. -/
def buildLtpDict (pairs : List (String × ℚ)) : List (String × ℚ) :=
  pairs.foldl
    (fun acc p =>
      if pyUpper p.1 == "" || p.2 == 0 then acc
      else dictInsert acc (pyUpper p.1) p.2)
    []

/-- `_store_symbol_ltps`: the full fresh contents of the
`snapshot_symbol_prices` table (the delete-all happens by this list
*replacing* the previous one in `create_snapshot`), every row stamped
with the single batch timestamp. -/
def storeSymbolLtps (trades : List Trade) (snapshot_taken_at : ℤ) : List SnapshotSymbolPrice :=
  (buildLtpDict (symbolLtpPairs trades)).map
    (fun p => { symbol := p.1, ltp := p.2, snapshot_taken_at := snapshot_taken_at })

/-- The lookup filter of `create_snapshot`: always by `snapshot_date`;
then by user id (and strategy when truthy) when the user id is truthy;
else by strategy and `zerodha_user_id IS NULL` when the strategy is
truthy; else by date alone. -/
def snapKeyFilter (d : ℤ) (zuid strat : Option String) (r : PortfolioSnapshot) : Bool :=
  r.snapshot_date == d &&
    (if truthyStr zuid then
       r.zerodha_user_id == zuid &&
         (if truthyStr strat then r.trading_strategy == strat else true)
     else if truthyStr strat then
       r.trading_strategy == strat && r.zerodha_user_id == none
     else true)

/-- Replace the first row satisfying `p` by `f` of it (the in-place ORM
update of the row returned by `.first()`). -/
def replaceFirst (l : List PortfolioSnapshot) (p : PortfolioSnapshot → Bool)
    (f : PortfolioSnapshot → PortfolioSnapshot) : List PortfolioSnapshot :=
  match l with
  | [] => []
  | x :: xs => if p x then f x :: xs else x :: replaceFirst xs p f

/-- The update branch: overwrite the metric fields of an existing row,
keeping its date, account and strategy columns. -/
def updateSnapRow (r : PortfolioSnapshot) (m : Metrics) : PortfolioSnapshot :=
  { r with
    nav := m.nav
    portfolio_value := m.portfolio_value
    total_payin := m.total_payin
    booked_pl := m.booked_pl
    float_pl := m.float_pl
    open_positions := m.open_positions
    balance := m.balance
    utilisation_percent := m.utilisation_percent
    xirr := m.xirr
    absolute_profit_percent := m.absolute_profit_percent }

/-- The insert branch: a fresh row carrying the key passed to
`create_snapshot`. -/
def newSnapRow (d : ℤ) (m : Metrics) (zuid strat : Option String) : PortfolioSnapshot :=
  { snapshot_date := d
    nav := m.nav
    portfolio_value := m.portfolio_value
    total_payin := m.total_payin
    booked_pl := m.booked_pl
    float_pl := m.float_pl
    open_positions := m.open_positions
    balance := m.balance
    utilisation_percent := m.utilisation_percent
    xirr := m.xirr
    absolute_profit_percent := m.absolute_profit_percent
    zerodha_user_id := zuid
    trading_strategy := strat }

/-- `create_snapshot(db, snapshot_date, zerodha_user_id,
trading_strategy, account_ids)`: compute metrics (exceptions propagate),
look up an existing row, unconditionally replace the whole
`snapshot_symbol_prices` table, then update or insert.  The wall-clock
`datetime.now(timezone.utc)` is the explicit `snapshot_taken_at`
argument. -/
noncomputable def create_snapshot (db : DBState) (snapshot_date : ℤ)
    (zuid strat : Option String) (accountIds : Option (List String))
    (snapshot_taken_at : ℤ) : Py (DBState × PortfolioSnapshot) :=
  match calculate_portfolio_metrics db snapshot_date zuid accountIds with
  | .error e => .error e
  | .ok m =>
    let existing := db.snapshots.find? (snapKeyFilter snapshot_date zuid strat)
    let db1 : DBState := { db with prices := storeSymbolLtps db.trades snapshot_taken_at }
    match existing with
    | some r =>
      let upd := updateSnapRow r m
      let rows := replaceFirst db1.snapshots (snapKeyFilter snapshot_date zuid strat) (fun _ => upd)
      .ok ({ db1 with snapshots := rows }, upd)
    | none =>
      let row := newSnapRow snapshot_date m zuid strat
      .ok ({ db1 with snapshots := db1.snapshots ++ [row] }, row)

/-- Two `create_snapshot` calls in a row with identical arguments (the
ledger tables are unchanged in between because `create_snapshot` never
writes trades or payins). -/
noncomputable def createSnapshotTwice (db : DBState) (snapshot_date : ℤ)
    (zuid strat : Option String) (accountIds : Option (List String))
    (t1 t2 : ℤ) : Py (DBState × PortfolioSnapshot) :=
  match create_snapshot db snapshot_date zuid strat accountIds t1 with
  | .error e => .error e
  | .ok (db1, _) => create_snapshot db1 snapshot_date zuid strat accountIds t2

/-- Number of snapshot rows carrying exactly the key
`(snapshot_date, zerodha_user_id, trading_strategy)`. -/
def countKey (rows : List PortfolioSnapshot) (d : ℤ) (zuid strat : Option String) : ℕ :=
  (rows.filter (fun r =>
    r.snapshot_date == d && r.zerodha_user_id == zuid && r.trading_strategy == strat)).length

/-! ## Reconciliation/sync engine (`sync_service.py`) -/

/-- A broker quote (the fields the sync engine reads; `net_change` is
carried to witness that the engine never consults it). -/
structure Quote where
  last_price : Option ℚ
  net_change : Option ℚ
deriving DecidableEq

/-- `_get_snapshot_ltp(db, symbol)`: first row matching the upper-cased
symbol; `None` unless its `ltp` is truthy and positive. -/
def getSnapshotLtp (prices : List SnapshotSymbolPrice) (symbol : String) : Option ℚ :=
  match prices.find? (fun r => r.symbol == pyUpper symbol) with
  | some r => if 0 < r.ltp then some r.ltp else none
  | none => none

/-- `_calculate_day_change_from_quote(quote, db, symbol)`: uses only the
quote's `last_price` and the snapshot baseline — never the broker's
`net_change`.  Returns `(day_change, day_change_percentage)`. -/
def calcDayChangeFromQuote (q : Quote) (prices : List SnapshotSymbolPrice)
    (symbol : String) : Option ℚ × Option ℚ :=
  match q.last_price with
  | none => (none, none)
  | some lp =>
    if lp ≤ 0 then (none, none)
    else
      match getSnapshotLtp prices symbol with
      | some snapshot_ltp =>
        if 0 < snapshot_ltp then
          (some (lp - snapshot_ltp), some ((lp - snapshot_ltp) / snapshot_ltp * 100))
        else (none, none)
      | none => (none, none)

/-- Truthiness of `quotes[s].get("last_price")`. -/
def truthyLastPrice (q : Quote) : Bool := truthyQ q.last_price

/-- The quote a symbol ends up with after the NSE batch plus the BSE
retry for symbols missing or without a truthy `last_price` (a BSE miss
leaves the NSE entry in the dict). -/
def resolveQuote (nse bse : String → Option Quote) (s : String) : Option Quote :=
  match nse s with
  | some q =>
    if truthyLastPrice q then some q
    else
      match bse s with
      | some q2 => some q2
      | none => some q
  | none => bse s

/-- The per-trade update of the sync loop body: set `current_price` when
the quote's `last_price` is truthy and positive, then always assign
`day_change`, `day_change_percentage` and `last_synced_at`. -/
def applySyncQuote (prices : List SnapshotSymbolPrice) (t_now : ℤ)
    (tr : Trade) (q : Quote) : Trade :=
  let tr1 :=
    match q.last_price with
    | some lp => if 0 < lp then { tr with current_price := some lp } else tr
    | none => tr
  let dc := calcDayChangeFromQuote q prices tr.symbol
  { tr1 with
    day_change := dc.1
    day_change_percentage := dc.2
    last_synced_at := some t_now }

/-- The result dictionary of a sync call (the fields the claims are
about). -/
structure SyncResult where
  success : Bool
  updated : ℕ
deriving DecidableEq

/-- `sync_positions(access_token, db)`: update every OPEN trade whose
symbol resolved to a truthy quote entry; trades with no entry are left
untouched; `updated` counts the touched trades. -/
def sync_positions (nse bse : String → Option Quote) (t_now : ℤ)
    (db : DBState) : SyncResult × DBState :=
  let open_trades := db.trades.filter (fun t => t.status == .OPEN)
  if open_trades.isEmpty then ({ success := true, updated := 0 }, db)
  else
    let updated :=
      (open_trades.filter (fun tr => (resolveQuote nse bse tr.symbol).isSome)).length
    let newTrades := db.trades.map (fun tr =>
      if tr.status == .OPEN then
        match resolveQuote nse bse tr.symbol with
        | some q => applySyncQuote db.prices t_now tr q
        | none => tr
      else tr)
    ({ success := true, updated := updated }, { db with trades := newTrades })

/-- `sync_holdings(access_token, db)`: its body is an exact duplicate of
`sync_positions` in the source. -/
def sync_holdings (nse bse : String → Option Quote) (t_now : ℤ)
    (db : DBState) : SyncResult × DBState :=
  let open_trades := db.trades.filter (fun t => t.status == .OPEN)
  if open_trades.isEmpty then ({ success := true, updated := 0 }, db)
  else
    let updated :=
      (open_trades.filter (fun tr => (resolveQuote nse bse tr.symbol).isSome)).length
    let newTrades := db.trades.map (fun tr =>
      if tr.status == .OPEN then
        match resolveQuote nse bse tr.symbol with
        | some q => applySyncQuote db.prices t_now tr q
        | none => tr
      else tr)
    ({ success := true, updated := updated }, { db with trades := newTrades })

/-- `sync_all(access_token, db)`: `sync_positions` then `sync_holdings`
back to back, summing the `updated` counts. -/
def sync_all (nse bse : String → Option Quote) (t1 t2 : ℤ)
    (db : DBState) : SyncResult × DBState :=
  let pr := sync_positions nse bse t1 db
  let hr := sync_holdings nse bse t2 pr.2
  ({ success := true, updated := pr.1.updated + hr.1.updated }, hr.2)

/-! ## Specification-level sums and fold characterizations -/

/-- The contribution of one trade to a P/L sum: its profit/loss when
defined, 0 when undefined or erroring. -/
def plContribution (t : Trade) : ℚ :=
  match calculate_profit_loss t with
  | .ok (some v) => v
  | _ => 0

/-- Booked P/L as a plain sum over CLOSED trades sold in scope. -/
def bookedSum (trades : List Trade) (d : ℤ) : ℚ :=
  ((trades.filter (fun t => t.status == .CLOSED && sellDateLE t d)).map plContribution).sum

/-- Float P/L as a plain sum over OPEN trades. -/
def floatSum (trades : List Trade) : ℚ :=
  ((trades.filter (fun t => t.status == .OPEN)).map plContribution).sum

/-- Capital deployed: `Σ buy_price · quantity` over OPEN trades. -/
def openPosSum (trades : List Trade) : ℚ :=
  ((trades.filter (fun t => t.status == .OPEN)).map
    (fun t => t.buy_price * (t.quantity : ℚ))).sum

lemma bookedPlCalc_ok_eq {l : List Trade} {d : ℤ} {b : ℚ}
    (h : bookedPlCalc l d = .ok b) : b = bookedSum l d := by
  induction l generalizing b with
  | nil =>
    simp only [bookedPlCalc, pure] at h
    cases h
    simp [bookedSum]
  | cons t rest ih =>
    rw [bookedPlCalc] at h
    by_cases hc : (t.status == TradeStatus.CLOSED && sellDateLE t d) = true
    · rw [if_pos hc] at h
      cases hpl : calculate_profit_loss t with
      | error e => rw [hpl] at h; exact absurd h (by simp [Except.bind])
      | ok pl =>
        rw [hpl] at h
        cases hb : bookedPlCalc rest d with
        | error e => rw [hb] at h; exact absurd h (by simp [Except.bind])
        | ok b' =>
          rw [hb] at h
          simp only [Except.bind, pure] at h
          cases h
          have := ih hb
          subst this
          simp [bookedSum, List.filter, hc, plContribution, hpl]
          cases pl <;> simp
    · rw [if_neg hc] at h
      have := ih h
      subst this
      simp [bookedSum, List.filter, hc]

lemma bookedPlCalc_ok_of {l : List Trade} {d : ℤ}
    (h : ∀ t ∈ l, (t.status == TradeStatus.CLOSED && sellDateLE t d) = true →
      (calculate_profit_loss t).isOk = true) :
    bookedPlCalc l d = .ok (bookedSum l d) := by
  induction l with
  | nil => simp [bookedPlCalc, bookedSum, pure]
  | cons t rest ih =>
    have hrest := ih (fun x hx => h x (List.mem_cons_of_mem _ hx))
    rw [bookedPlCalc]
    by_cases hc : (t.status == TradeStatus.CLOSED && sellDateLE t d) = true
    · rw [if_pos hc]
      have hok := h t (List.mem_cons_self _ _) hc
      cases hpl : calculate_profit_loss t with
      | error e => rw [hpl] at hok; simp [Except.isOk, Except.toBool] at hok
      | ok pl =>
        rw [hrest]
        simp [bookedSum, List.filter_cons, hc, plContribution, hpl]
        cases pl <;> simp
    · rw [if_neg hc, hrest]
      simp [bookedSum, List.filter_cons, hc]

lemma floatOpenCalc_ok_eq {l : List Trade} {fo : ℚ × ℚ}
    (h : floatOpenCalc l = .ok fo) : fo.1 = floatSum l ∧ fo.2 = openPosSum l := by
  induction l generalizing fo with
  | nil =>
    simp only [floatOpenCalc, pure] at h
    cases h
    simp [floatSum, openPosSum]
  | cons t rest ih =>
    rw [floatOpenCalc] at h
    by_cases hc : (t.status = TradeStatus.OPEN)
    · rw [if_pos hc] at h
      cases hpl : calculate_profit_loss t with
      | error e => rw [hpl] at h; exact absurd h (by simp [Except.bind])
      | ok pl =>
        rw [hpl] at h
        cases hb : floatOpenCalc rest with
        | error e => rw [hb] at h; exact absurd h (by simp [Except.bind])
        | ok fo' =>
          rw [hb] at h
          simp only [Except.bind, pure] at h
          cases h
          obtain ⟨h1, h2⟩ := ih hb
          constructor
          · simp [floatSum, List.filter_cons, hc, plContribution, hpl, h1]
            cases pl <;> simp [floatSum]
          · simp [openPosSum, List.filter_cons, hc, h2]
    · rw [if_neg hc] at h
      obtain ⟨h1, h2⟩ := ih h
      constructor
      · simp [floatSum, List.filter_cons, hc, h1]
      · simp [openPosSum, List.filter_cons, hc, h2]

lemma floatOpenCalc_ok_of {l : List Trade}
    (h : ∀ t ∈ l, t.status = TradeStatus.OPEN →
      (calculate_profit_loss t).isOk = true) :
    floatOpenCalc l = .ok (floatSum l, openPosSum l) := by
  induction l with
  | nil => simp [floatOpenCalc, floatSum, openPosSum, pure]
  | cons t rest ih =>
    have hrest := ih (fun x hx => h x (List.mem_cons_of_mem _ hx))
    rw [floatOpenCalc]
    by_cases hc : (t.status = TradeStatus.OPEN)
    · rw [if_pos hc]
      have hok := h t (List.mem_cons_self _ _) hc
      cases hpl : calculate_profit_loss t with
      | error e => rw [hpl] at hok; simp [Except.isOk, Except.toBool] at hok
      | ok pl =>
        rw [hrest]
        simp [floatSum, openPosSum, List.filter_cons, hc, plContribution, hpl]
        cases pl <;> simp
    · rw [if_neg hc, hrest]
      simp [floatSum, openPosSum, List.filter_cons, hc]

/-! ## C8 : portfolio value identity -/

/-- C8 (confirmed): for every metrics result the Metrics Engine
produces, over any ledger state, scope and as-of date,
`portfolio_value = total_payin + booked_pl + float_pl` exactly
(`calculate_portfolio_metrics` constructs `portfolio_value` as exactly
that sum). -/
theorem portfolio_value_identity (db : DBState) (d : ℤ)
    (zuid : Option String) (accountIds : Option (List String)) :
    match calculate_portfolio_metrics db d zuid accountIds with
    | .ok m => m.portfolio_value = m.total_payin + m.booked_pl + m.float_pl
    | .error _ => True := by
  unfold calculate_portfolio_metrics
  cases hb : bookedPlCalc (scopedTrades db.trades d (targetAccountIds zuid accountIds)) d with
  | error e => simp [hb]
  | ok b =>
    cases hf : floatOpenCalc (scopedTrades db.trades d (targetAccountIds zuid accountIds)) with
    | error e => simp [hb, hf]
    | ok fo => simp [hb, hf]

/-! ## Scope-level scalar definitions used to state the metrics claims -/

/-- `total_payin` over the scoped payins. -/
def totalPayinSum (db : DBState) (d : ℤ) (zuid : Option String)
    (accountIds : Option (List String)) : ℚ :=
  ((scopedPayins db.payins d (targetAccountIds zuid accountIds)).map (·.amount)).sum

/-- `available_capital = total_payin + max(0, booked_pl)` over the scope. -/
def availableCapital (db : DBState) (d : ℤ) (zuid : Option String)
    (accountIds : Option (List String)) : ℚ :=
  totalPayinSum db d zuid accountIds +
    max 0 (bookedSum (scopedTrades db.trades d (targetAccountIds zuid accountIds)) d)

/-- `open_positions` over the scope. -/
def openPositionsOf (db : DBState) (d : ℤ) (zuid : Option String)
    (accountIds : Option (List String)) : ℚ :=
  openPosSum (scopedTrades db.trades d (targetAccountIds zuid accountIds))

/-! ## C6 : utilisation percentage -/

/-- The utilisation formula exactly as the claim states it: for *every*
ledger state, `utilisation_percent = open_positions /
(total_payin + max(0, booked_pl)) × 100` (with utilisation 0 when the
denominator is 0, which under Lean's division-by-zero convention is the
same formula). -/
def utilisationClaim (db : DBState) (d : ℤ) (zuid : Option String)
    (accountIds : Option (List String)) : Prop :=
  match calculate_portfolio_metrics db d zuid accountIds with
  | .ok m => m.utilisation_percent =
      openPositionsOf db d zuid accountIds / availableCapital db d zuid accountIds * 100
  | .error _ => True

/-- A ledger whose payins sum to −100 while one OPEN position worth 10
is deployed: the claimed formula yields −10, the code yields 0. -/
def cexTradeC6 : Trade where
  symbol := "AAA"
  buy_date := 0
  buy_price := 10
  quantity := 1
  buy_amount := 10
  buy_charges := some 0
  sell_date := none
  sell_price := none
  sell_amount := none
  sell_charges := some 0
  status := .OPEN
  zerodha_user_id := none
  current_price := none
  last_synced_at := none
  day_change := none
  day_change_percentage := none

/-- Counterexample state for C6. -/
def cexDbC6 : DBState where
  trades := [cexTradeC6]
  payins := [{ payin_date := 0, amount := -100, number_of_shares := none,
               zerodha_user_id := none }]
  snapshots := []
  prices := []

/-- C6 counterexample: on a ledger whose summed payin amounts are
negative (−100) with a deployed open position (10), the code returns
`utilisation_percent = 0` (its guard is `available_capital > 0`), while
the claimed formula gives `10 / (−100) × 100 = −10`; the claim's
"0 whenever that denominator is 0" does not cover the negative
denominator the claim itself puts in scope. -/
theorem utilisation_claim_counterexample : ¬ utilisationClaim cexDbC6 0 none none := by
  simp only [utilisationClaim, calculate_portfolio_metrics, cexDbC6, cexTradeC6,
    scopedTrades, scopedPayins, targetAccountIds, bookedPlCalc, floatOpenCalc,
    calculate_profit_loss, sellDateLE, openPositionsOf, availableCapital,
    totalPayinSum, openPosSum, bookedSum, plContribution, List.filter]
  norm_num [openPositionsOf, availableCapital, totalPayinSum, openPosSum, bookedSum,
    scopedTrades, scopedPayins, targetAccountIds, List.filter, plContribution,
    calculate_profit_loss, cexDbC6, cexTradeC6, sellDateLE]

/-- C6 amended: `utilisation_percent` equals
`open_positions / (total_payin + max(0, booked_pl)) × 100` whenever that
denominator is strictly positive, and is 0 whenever the denominator is
zero *or negative* (the code's guard is `available_capital > 0`, not
`= 0`). -/
theorem utilisation_amended (db : DBState) (d : ℤ)
    (zuid : Option String) (accountIds : Option (List String)) :
    match calculate_portfolio_metrics db d zuid accountIds with
    | .ok m => m.utilisation_percent =
        if 0 < availableCapital db d zuid accountIds then
          openPositionsOf db d zuid accountIds / availableCapital db d zuid accountIds * 100
        else 0
    | .error _ => True := by
  unfold calculate_portfolio_metrics
  cases hb : bookedPlCalc (scopedTrades db.trades d (targetAccountIds zuid accountIds)) d with
  | error e => simp [hb]
  | ok b =>
    cases hf : floatOpenCalc (scopedTrades db.trades d (targetAccountIds zuid accountIds)) with
    | error e => simp [hb, hf]
    | ok fo =>
      have hbs := bookedPlCalc_ok_eq hb
      have hfs := floatOpenCalc_ok_eq hf
      simp only [hb, hf]
      simp [availableCapital, openPositionsOf, totalPayinSum, hbs, hfs.2]

/-! ## C9 : totality of the metrics engine over ledger records -/

/-- An OPEN trade whose `buy_charges` column is NULL (legal in the
schema: the column only has a default, not `nullable=False`). -/
def cexTradeC9 : Trade where
  symbol := "BBB"
  buy_date := 0
  buy_price := 10
  quantity := 1
  buy_amount := 10
  buy_charges := none
  sell_date := none
  sell_price := none
  sell_amount := none
  sell_charges := none
  status := .OPEN
  zerodha_user_id := none
  current_price := some 5
  last_synced_at := none
  day_change := none
  day_change_percentage := none

/-- Counterexample state for C9. -/
def cexDbC9 : DBState where
  trades := [cexTradeC9]
  payins := []
  snapshots := []
  prices := []

/-- C9 counterexample: `calculate_portfolio_metrics` is *not* total over
ledger records — on an OPEN trade whose `buy_charges` is NULL, the very
first statement of `calculate_profit_loss`
(`total_buy = self.buy_amount + self.buy_charges`) raises a `TypeError`
that propagates out of the metrics computation. -/
theorem metrics_raises_on_null_buy_charges :
    (calculate_portfolio_metrics cexDbC9 0 none none).isOk = false := by
  simp [calculate_portfolio_metrics, cexDbC9, cexTradeC9, scopedTrades, scopedPayins,
    targetAccountIds, bookedPlCalc, floatOpenCalc, calculate_profit_loss, sellDateLE,
    List.filter, Except.isOk, Except.toBool]

/-- C9 amended: over every combination of ledger records whose scoped
trades have non-NULL charge columns where `calculate_profit_loss` reads
them (equivalently: whose `calculate_profit_loss` does not raise), the
metrics computation never raises, and a trade whose profit/loss is
undefined (OPEN without a truthy `current_price`, CLOSED without a
truthy `sell_price`) contributes exactly 0 to `float_pl` resp.
`booked_pl`, being skipped rather than treated as an error. -/
theorem metrics_total_amended (db : DBState) (d : ℤ)
    (zuid : Option String) (accountIds : Option (List String))
    (h : (scopedTrades db.trades d (targetAccountIds zuid accountIds)).all
      (fun t => (calculate_profit_loss t).isOk) = true) :
    (calculate_portfolio_metrics db d zuid accountIds).isOk = true ∧
    (calculate_portfolio_metrics db d zuid accountIds).map Metrics.float_pl =
      .ok (floatSum (scopedTrades db.trades d (targetAccountIds zuid accountIds))) ∧
    (calculate_portfolio_metrics db d zuid accountIds).map Metrics.booked_pl =
      .ok (bookedSum (scopedTrades db.trades d (targetAccountIds zuid accountIds)) d) := by
  rw [List.all_eq_true] at h
  have hb := bookedPlCalc_ok_of (l := scopedTrades db.trades d (targetAccountIds zuid accountIds))
    (d := d) (fun t ht _ => by simpa using h t ht)
  have hf := floatOpenCalc_ok_of (l := scopedTrades db.trades d (targetAccountIds zuid accountIds))
    (fun t ht _ => by simpa using h t ht)
  unfold calculate_portfolio_metrics
  simp only [hb, hf]
  simp [Except.isOk, Except.toBool, Except.map]

/-- A well-formed OPEN trade without a current price: its profit/loss is
`None` and it must contribute 0. -/
def witTradeC9 : Trade := { cexTradeC6 with symbol := "CCC" }

/-- Witness state for C9's amended theorem. -/
def witDbC9 : DBState where
  trades := [witTradeC9]
  payins := []
  snapshots := []
  prices := []

/-- Witness for C9 amended: at a concrete one-trade ledger (OPEN, no
current price) the hypothesis holds and the metrics computation
succeeds with `float_pl` the (empty-contribution) sum. -/
theorem metrics_total_amended_witness :
    ((scopedTrades witDbC9.trades 0 (targetAccountIds none none)).all
      (fun t => (calculate_profit_loss t).isOk) = true) ∧
    (calculate_portfolio_metrics witDbC9 0 none none).isOk = true := by
  refine ⟨?_, ?_⟩
  · simp [scopedTrades, targetAccountIds, witDbC9, witTradeC9, cexTradeC6,
      calculate_profit_loss, List.filter, Except.isOk, Except.toBool]
  · exact (metrics_total_amended witDbC9 0 none none
      (by simp [scopedTrades, targetAccountIds, witDbC9, witTradeC9, cexTradeC6,
        calculate_profit_loss, List.filter, Except.isOk, Except.toBool])).1

/-! ## C7 : sell-time charges -/

lemma round2_eq_down (x : ℚ) (n : ℤ) (h1 : (n : ℚ) ≤ 100 * x)
    (h2 : 100 * x < (n : ℚ) + 1/2) : round2 x = (n : ℚ) / 100 := by
  have hfl : ⌊(100 : ℚ) * x⌋ = n := Int.floor_eq_iff.mpr ⟨h1, by linarith⟩
  simp only [round2, hfl]
  rw [if_pos (by linarith)]

lemma round2_eq_up (x : ℚ) (n : ℤ) (h1 : (n : ℚ) + 1/2 < 100 * x)
    (h2 : 100 * x < (n : ℚ) + 1) : round2 x = ((n : ℚ) + 1) / 100 := by
  have hfl : ⌊(100 : ℚ) * x⌋ = n := Int.floor_eq_iff.mpr ⟨by linarith, by linarith⟩
  simp only [round2, hfl]
  rw [if_neg (by linarith), if_pos (by linarith)]
  push_cast
  ring

/-- The sell charge exactly as the claim states it: round-trip total at
the actual prices minus the recorded buy charge, clamped to
non-negative, rounded to 2 decimals. -/
def sellChargesClaim (buy_price sell_price : ℚ) (qty : ℤ)
    (product : Product) (buy_charges : ℚ) : ℚ :=
  round2 (max (roundTripCharges product buy_price sell_price qty - buy_charges) 0)

lemma delivery_100_110_10 : zerodha_delivery_charges 100 110 10 = 117/50 := by
  have h : zerodha_delivery_charges 100 110 10 = round2 (2337969/1000000) := by
    unfold zerodha_delivery_charges
    norm_num
  rw [h, round2_eq_up (n := 233)]
  all_goals norm_num

/-- C7 counterexample: with `buy_price = 100`, `sell_price = 110`,
`qty = 10`, delivery product and a recorded buy charge of 100 (which
exceeds the 2.34 round-trip total), the code returns the 50/50 split
1.17 — not the claimed clamp `max(total − buy_charges, 0) = 0`. -/
theorem sell_charges_claim_counterexample :
    calculate_sell_charges 100 110 10 .CNC 100 = 117/100 ∧
    sellChargesClaim 100 110 10 .CNC 100 = 0 ∧
    (117 : ℚ)/100 ≠ 0 := by
  refine ⟨?_, ?_, by norm_num⟩
  · simp only [calculate_sell_charges]
    rw [show roundTripCharges Product.CNC 100 110 10 = 117/50 from delivery_100_110_10]
    rw [if_pos (by norm_num), if_pos (by norm_num)]
    rw [show (117 : ℚ)/50/2 = 117/100 by norm_num]
    rw [round2_eq_down (117/100) 117 (by norm_num) (by norm_num)]
    rw [show ((117 : ℤ) : ℚ)/100 = 117/100 by norm_num]
    rw [round2_eq_down (117/100) 117 (by norm_num) (by norm_num)]
    norm_num
  · simp only [sellChargesClaim]
    rw [show roundTripCharges Product.CNC 100 110 10 = 117/50 from delivery_100_110_10]
    rw [show max ((117 : ℚ)/50 - 100) 0 = 0 by rw [max_eq_right]; norm_num]
    rw [round2_eq_down 0 0 (by norm_num) (by norm_num)]
    norm_num

/-- C7 amended: for a recorded buy charge greater than 0, the sell
charge is the claimed `round2(max(total − buy_charges, 0))` whenever
`total − buy_charges ≥ 0`; when the difference is negative the code does
*not* clamp to 0 but falls back to the 50/50 split
`round2(round2(total/2))`. -/
theorem sell_charges_amended (buy_price sell_price : ℚ) (qty : ℤ)
    (product : Product) (buy_charges : ℚ) (h : 0 < buy_charges) :
    calculate_sell_charges buy_price sell_price qty product buy_charges =
      if roundTripCharges product buy_price sell_price qty - buy_charges < 0 then
        round2 (round2 (roundTripCharges product buy_price sell_price qty / 2))
      else sellChargesClaim buy_price sell_price qty product buy_charges := by
  simp only [calculate_sell_charges, sellChargesClaim]
  rw [if_pos h]
  by_cases hneg : roundTripCharges product buy_price sell_price qty - buy_charges < 0
  · rw [if_pos hneg, if_pos hneg]
  · rw [if_neg hneg, if_neg hneg,
      max_eq_left (le_of_not_lt (by simpa using hneg))]

/-- Witness for C7 amended at the counterexample's concrete input. -/
theorem sell_charges_amended_witness :
    (0 : ℚ) < 100 ∧
    calculate_sell_charges 100 110 10 .CNC 100 =
      if roundTripCharges Product.CNC 100 110 10 - 100 < 0 then
        round2 (round2 (roundTripCharges Product.CNC 100 110 10 / 2))
      else sellChargesClaim 100 110 10 .CNC 100 :=
  ⟨by norm_num, sell_charges_amended 100 110 10 .CNC 100 (by norm_num)⟩

/-! ## Sync engine lemmas -/

/-- The per-trade transformation a sync pass applies. -/
def syncStep (nse bse : String → Option Quote) (prices : List SnapshotSymbolPrice)
    (t_now : ℤ) (tr : Trade) : Trade :=
  if tr.status == .OPEN then
    match resolveQuote nse bse tr.symbol with
    | some q => applySyncQuote prices t_now tr q
    | none => tr
  else tr

lemma applySyncQuote_symbol (prices : List SnapshotSymbolPrice) (t_now : ℤ)
    (tr : Trade) (q : Quote) : (applySyncQuote prices t_now tr q).symbol = tr.symbol := by
  unfold applySyncQuote
  cases hq : q.last_price with
  | none => rfl
  | some lp =>
    by_cases h : 0 < lp
    · simp [h]
    · simp [h]

lemma applySyncQuote_status (prices : List SnapshotSymbolPrice) (t_now : ℤ)
    (tr : Trade) (q : Quote) : (applySyncQuote prices t_now tr q).status = tr.status := by
  unfold applySyncQuote
  cases hq : q.last_price with
  | none => rfl
  | some lp =>
    by_cases h : 0 < lp
    · simp [h]
    · simp [h]

lemma applySyncQuote_day_change (prices : List SnapshotSymbolPrice) (t_now : ℤ)
    (tr : Trade) (q : Quote) :
    (applySyncQuote prices t_now tr q).day_change =
      (calcDayChangeFromQuote q prices tr.symbol).1 := by
  unfold applySyncQuote
  cases hq : q.last_price with
  | none => rfl
  | some lp =>
    by_cases h : 0 < lp
    · simp [h]
    · simp [h]

lemma applySyncQuote_day_change_pct (prices : List SnapshotSymbolPrice) (t_now : ℤ)
    (tr : Trade) (q : Quote) :
    (applySyncQuote prices t_now tr q).day_change_percentage =
      (calcDayChangeFromQuote q prices tr.symbol).2 := by
  unfold applySyncQuote
  cases hq : q.last_price with
  | none => rfl
  | some lp =>
    by_cases h : 0 < lp
    · simp [h]
    · simp [h]

lemma applySyncQuote_last_synced (prices : List SnapshotSymbolPrice) (t_now : ℤ)
    (tr : Trade) (q : Quote) :
    (applySyncQuote prices t_now tr q).last_synced_at = some t_now := by
  unfold applySyncQuote
  cases hq : q.last_price with
  | none => rfl
  | some lp =>
    by_cases h : 0 < lp
    · simp [h]
    · simp [h]

lemma applySyncQuote_current_price (prices : List SnapshotSymbolPrice) (t_now : ℤ)
    (tr : Trade) (q : Quote) (lp : ℚ) (hlp : q.last_price = some lp) (hpos : 0 < lp) :
    (applySyncQuote prices t_now tr q).current_price = some lp := by
  unfold applySyncQuote
  rw [hlp]
  simp [hpos]

lemma getSnapshotLtp_pos {prices : List SnapshotSymbolPrice} {s : String} {v : ℚ}
    (h : getSnapshotLtp prices s = some v) : 0 < v := by
  unfold getSnapshotLtp at h
  split at h
  · split at h
    · cases h; assumption
    · exact absurd h (by simp)
  · exact absurd h (by simp)

/-- When a list holds no OPEN trade, a sync pass maps it to itself. -/
lemma map_syncStep_id (nse bse : String → Option Quote)
    (prices : List SnapshotSymbolPrice) (t_now : ℤ) (l : List Trade)
    (hnone : ∀ tr ∈ l, (tr.status == TradeStatus.OPEN) = false) :
    l.map (syncStep nse bse prices t_now) = l := by
  induction l with
  | nil => rfl
  | cons a t ih =>
    have ha := hnone a (by simp)
    have hstep : syncStep nse bse prices t_now a = a := by
      unfold syncStep
      rw [if_neg (by simp [ha])]
    simp only [List.map_cons, hstep]
    rw [ih (fun x hx => hnone x (by simp [hx]))]

/-- The post-state of a sync pass is the per-trade map in both branches
(when there are no open trades the map is the identity). -/
lemma sync_positions_trades (nse bse : String → Option Quote) (t_now : ℤ) (db : DBState) :
    ((sync_positions nse bse t_now db).2).trades =
      db.trades.map (syncStep nse bse db.prices t_now) := by
  unfold sync_positions
  by_cases hempty : (db.trades.filter (fun t => t.status == TradeStatus.OPEN)).isEmpty = true
  · rw [if_pos hempty]
    have hnone : ∀ tr ∈ db.trades, (tr.status == TradeStatus.OPEN) = false := by
      intro tr htr
      by_contra hcontra
      have hopen : (tr.status == TradeStatus.OPEN) = true := by
        cases h' : (tr.status == TradeStatus.OPEN)
        · exact absurd h' hcontra
        · rfl
      have hmem : tr ∈ db.trades.filter (fun t => t.status == TradeStatus.OPEN) :=
        List.mem_filter.mpr ⟨htr, hopen⟩
      rw [List.isEmpty_iff.mp hempty] at hmem
      simp at hmem
    exact (map_syncStep_id nse bse db.prices t_now db.trades hnone).symm
  · rw [if_neg hempty]
    rfl

/-- A sync pass does not touch the price cache (nor payins/snapshots). -/
lemma sync_positions_prices (nse bse : String → Option Quote) (t_now : ℤ) (db : DBState) :
    ((sync_positions nse bse t_now db).2).prices = db.prices := by
  unfold sync_positions
  by_cases hempty : (db.trades.filter (fun t => t.status == TradeStatus.OPEN)).isEmpty = true
  · rw [if_pos hempty]
  · rw [if_neg hempty]

/-- The `updated` count of a sync pass: open trades whose symbol
resolved to a (truthy) quote entry. -/
lemma sync_positions_updated (nse bse : String → Option Quote) (t_now : ℤ) (db : DBState) :
    (sync_positions nse bse t_now db).1.updated =
      ((db.trades.filter (fun t => t.status == TradeStatus.OPEN)).filter
        (fun tr => (resolveQuote nse bse tr.symbol).isSome)).length := by
  unfold sync_positions
  by_cases hempty : (db.trades.filter (fun t => t.status == TradeStatus.OPEN)).isEmpty = true
  · rw [if_pos hempty]
    rw [List.isEmpty_iff.mp hempty]
    rfl
  · rw [if_neg hempty]

/-- `sync_holdings` is a verbatim duplicate of `sync_positions`. -/
lemma sync_holdings_eq : sync_holdings = sync_positions := rfl

/-! ## C2 : day change always from the snapshot baseline -/

/-- The claim's second half exactly as stated: *every* OPEN trade whose
symbol has no `SnapshotSymbolPrice` entry ends the sync with a null
`day_change`. -/
def dayChangeNullClaim (nse bse : String → Option Quote) (t_now : ℤ) (db : DBState) : Prop :=
  ∀ tr ∈ ((sync_positions nse bse t_now db).2).trades,
    tr.status = .OPEN →
    getSnapshotLtp db.prices tr.symbol = none →
    tr.day_change = none

/-- An OPEN trade with a stale non-null `day_change` from an earlier
sync. -/
def cexTradeC2 : Trade := { cexTradeC6 with symbol := "DDD", day_change := some 5 }

/-- Counterexample state for C2: no snapshot baseline, and a broker that
returns no quote at all for the symbol. -/
def cexDbC2 : DBState where
  trades := [cexTradeC2]
  payins := []
  snapshots := []
  prices := []

/-- C2 counterexample: a trade whose symbol resolves to *no* quote is
skipped by the sync loop, so it ends the sync with its stale
`day_change = 5` even though it has no `SnapshotSymbolPrice` entry —
the claim's "ends the sync with day_change null" only holds for trades
whose symbol resolved to a quote. -/
theorem day_change_null_claim_counterexample :
    ¬ dayChangeNullClaim (fun _ => none) (fun _ => none) 0 cexDbC2 := by
  intro h
  have hmem : cexTradeC2 ∈ ((sync_positions (fun _ => none) (fun _ => none) 0 cexDbC2).2).trades := by
    rw [sync_positions_trades]
    simp [cexDbC2, syncStep, resolveQuote, cexTradeC2, cexTradeC6]
  have := h cexTradeC2 hmem (by simp [cexTradeC2, cexTradeC6]) (by simp [getSnapshotLtp, cexDbC2])
  simp [cexTradeC2, cexTradeC6] at this

/-- C2 amended: for every OPEN trade whose symbol *resolves to a quote*
with a truthy positive `last_price` during a sync pass, `day_change` is
set from the `SnapshotSymbolPrice` baseline only — `last_price −
snapshot_ltp` and `(last_price − snapshot_ltp)/snapshot_ltp × 100` when
a baseline row exists, and null when none exists (never a fabricated 0,
never the broker's own `net_change`, on which the result provably does
not depend); a trade with no resolved quote, however, retains its stale
`day_change`. -/
theorem day_change_amended (nse bse : String → Option Quote) (t_now : ℤ) (db : DBState) :
    ∀ tr ∈ ((sync_positions nse bse t_now db).2).trades,
      tr.status = .OPEN →
      ∀ q, resolveQuote nse bse tr.symbol = some q →
      ∀ lp, q.last_price = some lp → 0 < lp →
      (getSnapshotLtp db.prices tr.symbol = none →
        tr.day_change = none ∧ tr.day_change_percentage = none) ∧
      (∀ snapshot_ltp, getSnapshotLtp db.prices tr.symbol = some snapshot_ltp →
        tr.day_change = some (lp - snapshot_ltp) ∧
        tr.day_change_percentage =
          some ((lp - snapshot_ltp) / snapshot_ltp * 100)) := by
  intro tr htr hst q hq lp hlp hpos
  rw [sync_positions_trades] at htr
  obtain ⟨tr0, htr0, hstep⟩ := List.mem_map.mp htr
  unfold syncStep at hstep
  by_cases hopen : (tr0.status == TradeStatus.OPEN) = true
  · rw [if_pos hopen] at hstep
    cases hq0 : resolveQuote nse bse tr0.symbol with
    | none =>
      rw [hq0] at hstep
      subst hstep
      rw [hq0] at hq
      cases hq
    | some q0 =>
      rw [hq0] at hstep
      subst hstep
      rw [applySyncQuote_symbol] at hq
      rw [hq0] at hq
      cases hq
      rw [applySyncQuote_symbol, applySyncQuote_day_change, applySyncQuote_day_change_pct]
      simp only [calcDayChangeFromQuote, hlp]
      rw [if_neg (by linarith)]
      constructor
      · intro hnone
        rw [hnone]
        exact ⟨rfl, rfl⟩
      · intro snapshot_ltp hsome
        simp only [hsome]
        rw [if_pos (getSnapshotLtp_pos hsome)]
        exact ⟨rfl, rfl⟩
  · rw [if_neg hopen] at hstep
    subst hstep
    exact absurd hst (by simpa using hopen)

/-- Witness trade for C2's amended theorem. -/
def witTradeC2 : Trade := { cexTradeC6 with symbol := "EEE", day_change := some 99 }

/-- Witness state for C2: baseline 100 for `"EEE"`. -/
def witDbC2 : DBState where
  trades := [witTradeC2]
  payins := []
  snapshots := []
  prices := [{ symbol := "EEE", ltp := 100, snapshot_taken_at := 0 }]

/-- Witness NSE feed for C2: `"EEE"` quotes at 110 with a broker
`net_change` of 42 that must be ignored. -/
def witNseC2 : String → Option Quote :=
  fun s => if s == "EEE" then some { last_price := some 110, net_change := some 42 } else none

/-- Witness for C2 amended at a concrete run: the synced trade's
`day_change` is `110 − 100 = 10` and its percentage is 10 — not the
broker's `net_change = 42`. -/
theorem day_change_amended_witness :
    (applySyncQuote witDbC2.prices 7 witTradeC2
        { last_price := some 110, net_change := some 42 }).day_change = some 10 ∧
    (applySyncQuote witDbC2.prices 7 witTradeC2
        { last_price := some 110, net_change := some 42 }).day_change_percentage = some 10 := by
  have hq : resolveQuote witNseC2 (fun _ => none) witTradeC2.symbol =
      some { last_price := some 110, net_change := some 42 } := by
    simp [resolveQuote, witNseC2, witTradeC2, cexTradeC6, truthyLastPrice, truthyQ]
  have hmem : (applySyncQuote witDbC2.prices 7 witTradeC2
      { last_price := some 110, net_change := some 42 }) ∈
      ((sync_positions witNseC2 (fun _ => none) 7 witDbC2).2).trades := by
    rw [sync_positions_trades]
    simp only [witDbC2, List.map_cons, List.map_nil, syncStep]
    rw [if_pos (by simp [witTradeC2, cexTradeC6]), hq]
    simp
  have hltp : getSnapshotLtp witDbC2.prices witTradeC2.symbol = some 100 := by
    simp [getSnapshotLtp, witDbC2, witTradeC2, cexTradeC6, pyUpper]
  have hmain := (day_change_amended witNseC2 (fun _ => none) 7 witDbC2
    (applySyncQuote witDbC2.prices 7 witTradeC2
      { last_price := some 110, net_change := some 42 })
    hmem
    (by rw [applySyncQuote_status]; simp [witTradeC2, cexTradeC6])
    { last_price := some 110, net_change := some 42 }
    (by rw [applySyncQuote_symbol]; exact hq)
    110 rfl (by norm_num)).2 100
    (by rw [applySyncQuote_symbol]; exact hltp)
  refine ⟨?_, ?_⟩
  · rw [hmain.1]; norm_num
  · rw [hmain.2]; norm_num

/-! ## C10 : sync_all double update -/

lemma syncStep_status (nse bse : String → Option Quote)
    (prices : List SnapshotSymbolPrice) (t_now : ℤ) (tr : Trade) :
    (syncStep nse bse prices t_now tr).status = tr.status := by
  unfold syncStep
  by_cases hopen : (tr.status == TradeStatus.OPEN) = true
  · rw [if_pos hopen]
    cases resolveQuote nse bse tr.symbol with
    | some q => exact applySyncQuote_status prices t_now tr q
    | none => rfl
  · rw [if_neg hopen]

lemma syncStep_symbol (nse bse : String → Option Quote)
    (prices : List SnapshotSymbolPrice) (t_now : ℤ) (tr : Trade) :
    (syncStep nse bse prices t_now tr).symbol = tr.symbol := by
  unfold syncStep
  by_cases hopen : (tr.status == TradeStatus.OPEN) = true
  · rw [if_pos hopen]
    cases resolveQuote nse bse tr.symbol with
    | some q => exact applySyncQuote_symbol prices t_now tr q
    | none => rfl
  · rw [if_neg hopen]

/-- The resolved-and-valid-price property of a trade, as the C10
hypothesis states it for every OPEN trade. -/
def resolvedValid (nse bse : String → Option Quote) (tr : Trade) : Prop :=
  ∃ q lp, resolveQuote nse bse tr.symbol = some q ∧ q.last_price = some lp ∧ 0 < lp

lemma syncStep_eq_applySyncQuote (nse bse : String → Option Quote)
    (prices : List SnapshotSymbolPrice) (t_now : ℤ) (tr : Trade)
    (hopen : tr.status = .OPEN) (q : Quote)
    (hq : resolveQuote nse bse tr.symbol = some q) :
    syncStep nse bse prices t_now tr = applySyncQuote prices t_now tr q := by
  unfold syncStep
  rw [if_pos (by simp [hopen]), hq]

/-- The fields every OPEN trade carries after one sync pass, under the
everything-resolves hypothesis; the conclusion re-establishes the
hypothesis for the mapped list, which is what lets the second pass
repeat the update. -/
lemma mem_map_syncStep_fields (nse bse : String → Option Quote)
    (prices : List SnapshotSymbolPrice) (t_now : ℤ) (l : List Trade)
    (h : ∀ x ∈ l, x.status = .OPEN → resolvedValid nse bse x)
    (tr : Trade) (htr : tr ∈ l.map (syncStep nse bse prices t_now))
    (hst : tr.status = .OPEN) :
    tr.last_synced_at = some t_now ∧
    ∃ q lp, resolveQuote nse bse tr.symbol = some q ∧ q.last_price = some lp ∧ 0 < lp ∧
      tr.current_price = some lp ∧
      tr.day_change = (calcDayChangeFromQuote q prices tr.symbol).1 ∧
      tr.day_change_percentage = (calcDayChangeFromQuote q prices tr.symbol).2 := by
  obtain ⟨tr0, htr0, hstep⟩ := List.mem_map.mp htr
  have hst0 : tr0.status = .OPEN := by
    rw [← hstep, syncStep_status] at hst
    exact hst
  obtain ⟨q, lp, hq, hlp, hpos⟩ := h tr0 htr0 hst0
  have hstep' := syncStep_eq_applySyncQuote nse bse prices t_now tr0 hst0 q hq
  rw [hstep'] at hstep
  subst hstep
  rw [applySyncQuote_symbol]
  exact ⟨applySyncQuote_last_synced prices t_now tr0 q,
    q, lp, hq, hlp, hpos,
    applySyncQuote_current_price prices t_now tr0 q lp hlp hpos,
    applySyncQuote_day_change prices t_now tr0 q,
    applySyncQuote_day_change_pct prices t_now tr0 q⟩

lemma resolved_preserved (nse bse : String → Option Quote)
    (prices : List SnapshotSymbolPrice) (t_now : ℤ) (l : List Trade)
    (h : ∀ x ∈ l, x.status = .OPEN → resolvedValid nse bse x) :
    ∀ x ∈ l.map (syncStep nse bse prices t_now), x.status = .OPEN → resolvedValid nse bse x := by
  intro x hx hst
  obtain ⟨x0, hx0, hstep⟩ := List.mem_map.mp hx
  have hst0 : x0.status = .OPEN := by
    rw [← hstep, syncStep_status] at hst
    exact hst
  have := h x0 hx0 hst0
  unfold resolvedValid at this ⊢
  rw [← hstep, syncStep_symbol]
  exact this

/-- Length of the open-and-resolved filter is the full open count under
the everything-resolves hypothesis. -/
lemma filter_resolved_eq (nse bse : String → Option Quote) (l : List Trade)
    (h : ∀ x ∈ l, x.status = .OPEN → resolvedValid nse bse x) :
    ((l.filter (fun t => t.status == TradeStatus.OPEN)).filter
      (fun tr => (resolveQuote nse bse tr.symbol).isSome)).length =
      (l.filter (fun t => t.status == TradeStatus.OPEN)).length := by
  congr 1
  apply List.filter_eq_self.mpr
  intro x hx
  obtain ⟨hxl, hxopen⟩ := List.mem_filter.mp hx
  obtain ⟨q, lp, hq, _, _⟩ := h x hxl (by simpa using hxopen)
  simp [hq]

/-- Open count is preserved by a sync pass. -/
lemma filter_open_map_length (nse bse : String → Option Quote)
    (prices : List SnapshotSymbolPrice) (t_now : ℤ) (l : List Trade) :
    ((l.map (syncStep nse bse prices t_now)).filter
      (fun t => t.status == TradeStatus.OPEN)).length =
      (l.filter (fun t => t.status == TradeStatus.OPEN)).length := by
  rw [← List.countP_eq_length_filter, ← List.countP_eq_length_filter, List.countP_map]
  apply List.countP_congr
  intro x _
  simp [Function.comp, syncStep_status]

/-- C10 (confirmed): `sync_all` executes `sync_positions` and
`sync_holdings` back to back over the same set of OPEN trades, so when
every OPEN trade's symbol resolves to a quote with a valid price, the
returned count is exactly twice the number of OPEN trades, and each
OPEN trade's `current_price`, `day_change` and `last_synced_at` are
written in both passes: after the first pass they carry the pass-1
timestamp and after the second pass the pass-2 timestamp, with the same
quote-derived values both times (the baseline cache is untouched in
between). -/
theorem sync_all_double_update (nse bse : String → Option Quote) (t1 t2 : ℤ)
    (db : DBState)
    (h : ∀ tr ∈ db.trades, tr.status = .OPEN → resolvedValid nse bse tr) :
    (sync_all nse bse t1 t2 db).1.updated =
      2 * (db.trades.filter (fun t => t.status == TradeStatus.OPEN)).length ∧
    (∀ tr ∈ ((sync_positions nse bse t1 db).2).trades, tr.status = .OPEN →
      tr.last_synced_at = some t1 ∧
      ∃ q lp, resolveQuote nse bse tr.symbol = some q ∧ q.last_price = some lp ∧ 0 < lp ∧
        tr.current_price = some lp ∧
        tr.day_change = (calcDayChangeFromQuote q db.prices tr.symbol).1 ∧
        tr.day_change_percentage = (calcDayChangeFromQuote q db.prices tr.symbol).2) ∧
    (∀ tr ∈ ((sync_all nse bse t1 t2 db).2).trades, tr.status = .OPEN →
      tr.last_synced_at = some t2 ∧
      ∃ q lp, resolveQuote nse bse tr.symbol = some q ∧ q.last_price = some lp ∧ 0 < lp ∧
        tr.current_price = some lp ∧
        tr.day_change = (calcDayChangeFromQuote q db.prices tr.symbol).1 ∧
        tr.day_change_percentage = (calcDayChangeFromQuote q db.prices tr.symbol).2) := by
  have hstate : (sync_all nse bse t1 t2 db).2 =
      (sync_holdings nse bse t2 (sync_positions nse bse t1 db).2).2 := rfl
  have hcount : (sync_all nse bse t1 t2 db).1.updated =
      (sync_positions nse bse t1 db).1.updated +
      (sync_holdings nse bse t2 (sync_positions nse bse t1 db).2).1.updated := rfl
  have hdb1trades := sync_positions_trades nse bse t1 db
  have hdb1prices := sync_positions_prices nse bse t1 db
  have hres1 := resolved_preserved nse bse db.prices t1 db.trades h
  refine ⟨?_, ?_, ?_⟩
  · rw [hcount, sync_positions_updated, sync_holdings_eq, sync_positions_updated, hdb1trades]
    rw [filter_resolved_eq nse bse db.trades h,
      filter_resolved_eq nse bse _ hres1,
      filter_open_map_length]
    ring
  · intro tr htr hst
    rw [hdb1trades] at htr
    exact mem_map_syncStep_fields nse bse db.prices t1 db.trades h tr htr hst
  · intro tr htr hst
    rw [hstate, sync_holdings_eq, sync_positions_trades, hdb1prices, hdb1trades] at htr
    exact mem_map_syncStep_fields nse bse db.prices t2 _ hres1 tr htr hst

/-- Witness trade for C10. -/
def witTradeC10 : Trade := { cexTradeC6 with symbol := "FFF" }

/-- Witness state for C10. -/
def witDbC10 : DBState where
  trades := [witTradeC10]
  payins := []
  snapshots := []
  prices := []

/-- Witness NSE feed for C10. -/
def witNseC10 : String → Option Quote :=
  fun s => if s == "FFF" then some { last_price := some 55, net_change := none } else none

/-- Witness for C10 at a concrete one-trade state where the symbol
resolves: the double sync reports 2 updated trades. -/
theorem sync_all_double_update_witness :
    (sync_all witNseC10 (fun _ => none) 3 4 witDbC10).1.updated = 2 := by
  have hres : ∀ tr ∈ witDbC10.trades, tr.status = .OPEN →
      resolvedValid witNseC10 (fun _ => none) tr := by
    intro tr htr _
    have : tr = witTradeC10 := by simpa [witDbC10] using htr
    subst this
    refine ⟨{ last_price := some 55, net_change := none }, 55, ?_, rfl, by norm_num⟩
    simp [resolveQuote, witNseC10, witTradeC10, cexTradeC6, truthyLastPrice, truthyQ]
  have := (sync_all_double_update witNseC10 (fun _ => none) 3 4 witDbC10 hres).1
  rw [this]
  simp [witDbC10, witTradeC10, cexTradeC6, List.filter]

/-! ## create_snapshot branch lemmas -/

lemma metrics_ok_of_all_ok (db : DBState) (d : ℤ) (zuid : Option String)
    (accountIds : Option (List String))
    (h : ∀ t ∈ scopedTrades db.trades d (targetAccountIds zuid accountIds),
      (calculate_profit_loss t).isOk = true) :
    ∃ m, calculate_portfolio_metrics db d zuid accountIds = .ok m := by
  have hb := bookedPlCalc_ok_of (l := scopedTrades db.trades d (targetAccountIds zuid accountIds))
    (d := d) (fun t ht _ => h t ht)
  have hf := floatOpenCalc_ok_of (l := scopedTrades db.trades d (targetAccountIds zuid accountIds))
    (fun t ht _ => h t ht)
  unfold calculate_portfolio_metrics
  simp only [hb, hf]
  exact ⟨_, rfl⟩

lemma create_snapshot_found {db : DBState} {d : ℤ} {zuid strat : Option String}
    {accountIds : Option (List String)} {t : ℤ} {m : Metrics} {r : PortfolioSnapshot}
    (hm : calculate_portfolio_metrics db d zuid accountIds = .ok m)
    (hf : db.snapshots.find? (snapKeyFilter d zuid strat) = some r) :
    create_snapshot db d zuid strat accountIds t =
      .ok ({ trades := db.trades
             payins := db.payins
             snapshots := replaceFirst db.snapshots (snapKeyFilter d zuid strat)
               (fun _ => updateSnapRow r m)
             prices := storeSymbolLtps db.trades t },
           updateSnapRow r m) := by
  unfold create_snapshot
  rw [hm, hf]

lemma create_snapshot_notfound {db : DBState} {d : ℤ} {zuid strat : Option String}
    {accountIds : Option (List String)} {t : ℤ} {m : Metrics}
    (hm : calculate_portfolio_metrics db d zuid accountIds = .ok m)
    (hf : db.snapshots.find? (snapKeyFilter d zuid strat) = none) :
    create_snapshot db d zuid strat accountIds t =
      .ok ({ trades := db.trades
             payins := db.payins
             snapshots := db.snapshots ++ [newSnapRow d m zuid strat]
             prices := storeSymbolLtps db.trades t },
           newSnapRow d m zuid strat) := by
  unfold create_snapshot
  rw [hm, hf]

/-! ## C4 : idempotent materialization -/

/-- The claim exactly as stated: two `create_snapshot` calls with the
same `(date, scope, strategy)` over an unchanged ledger leave exactly
one `PortfolioSnapshot` row for that key. -/
def materializeIdemClaim (db : DBState) (d : ℤ) (zuid strat : Option String)
    (accountIds : Option (List String)) (t1 t2 : ℤ) : Prop :=
  match createSnapshotTwice db d zuid strat accountIds t1 t2 with
  | .ok p => countKey p.1.snapshots d zuid strat = 1
  | .error _ => True

/-- A pre-existing strategy-scoped snapshot row at the same date. -/
def cexSnapRowC4 : PortfolioSnapshot where
  snapshot_date := 0
  nav := 0
  portfolio_value := 0
  total_payin := 0
  booked_pl := 0
  float_pl := 0
  open_positions := 0
  balance := 0
  utilisation_percent := 0
  xirr := 0
  absolute_profit_percent := 0
  zerodha_user_id := none
  trading_strategy := some "SWING"

/-- Counterexample state for C4: empty ledger, one (0, NULL, "SWING")
snapshot row. -/
def cexDbC4 : DBState where
  trades := []
  payins := []
  snapshots := [cexSnapRowC4]
  prices := []

/-- C4 counterexample: materializing the aggregated `(date 0, account
NULL, strategy NULL)` key twice over an unchanged ledger leaves *zero*
rows for that key, not one — the date-only lookup finds and updates the
pre-existing `(0, NULL, "SWING")` row both times and never inserts a
row for the requested key. -/
theorem materialize_idem_claim_counterexample :
    ¬ materializeIdemClaim cexDbC4 0 none none none 1 2 := by
  obtain ⟨m, hm⟩ := metrics_ok_of_all_ok cexDbC4 0 none none
    (by intro t ht; simp [cexDbC4, scopedTrades, targetAccountIds] at ht)
  have hfind : cexDbC4.snapshots.find? (snapKeyFilter 0 none none) = some cexSnapRowC4 := by
    simp [cexDbC4, List.find?, snapKeyFilter, truthyStr, cexSnapRowC4]
  have hrun1 := create_snapshot_found (t := 1) hm hfind
  set db1 : DBState :=
    { trades := cexDbC4.trades
      payins := cexDbC4.payins
      snapshots := replaceFirst cexDbC4.snapshots (snapKeyFilter 0 none none)
        (fun _ => updateSnapRow cexSnapRowC4 m)
      prices := storeSymbolLtps cexDbC4.trades 1 } with hdb1
  have hsnap1 : db1.snapshots = [updateSnapRow cexSnapRowC4 m] := by
    rw [hdb1]
    simp [cexDbC4, replaceFirst, hfind, snapKeyFilter, truthyStr, cexSnapRowC4]
  obtain ⟨m2, hm2⟩ := metrics_ok_of_all_ok db1 0 none none
    (by intro t ht; rw [hdb1] at ht; simp [cexDbC4, scopedTrades, targetAccountIds] at ht)
  have hfind2 : db1.snapshots.find? (snapKeyFilter 0 none none) =
      some (updateSnapRow cexSnapRowC4 m) := by
    rw [hsnap1]
    simp [List.find?, snapKeyFilter, truthyStr, updateSnapRow, cexSnapRowC4]
  have hrun2 := create_snapshot_found (t := 2) hm2 hfind2
  unfold materializeIdemClaim createSnapshotTwice
  simp only [hrun1, hrun2]
  have hfinal : replaceFirst db1.snapshots (snapKeyFilter 0 none none)
      (fun _ => updateSnapRow (updateSnapRow cexSnapRowC4 m) m2) =
      [updateSnapRow (updateSnapRow cexSnapRowC4 m) m2] := by
    rw [hsnap1]
    simp [replaceFirst, snapKeyFilter, truthyStr, updateSnapRow, cexSnapRowC4]
  intro hclaim
  rw [hfinal] at hclaim
  simp [countKey, List.filter, updateSnapRow, cexSnapRowC4] at hclaim

lemma metrics_congr {db1 db2 : DBState} (d : ℤ) (zuid : Option String)
    (accountIds : Option (List String))
    (ht : db1.trades = db2.trades) (hp : db1.payins = db2.payins) :
    calculate_portfolio_metrics db1 d zuid accountIds =
      calculate_portfolio_metrics db2 d zuid accountIds := by
  unfold calculate_portfolio_metrics
  rw [ht, hp]

lemma snapKeyFilter_false_of_date {d : ℤ} {zuid strat : Option String}
    {r : PortfolioSnapshot} (h : r.snapshot_date ≠ d) :
    snapKeyFilter d zuid strat r = false := by
  unfold snapKeyFilter
  simp [h]

lemma snapKeyFilter_newRow {d : ℤ} {zuid strat : Option String} {m : Metrics}
    (h : zuid ≠ some "") :
    snapKeyFilter d zuid strat (newSnapRow d m zuid strat) = true := by
  unfold snapKeyFilter newSnapRow
  by_cases hz : truthyStr zuid = true
  · simp only [hz, if_true]
    by_cases hs : truthyStr strat = true
    · simp [hs]
    · simp [hs]
  · simp only [Bool.not_eq_true] at hz
    rw [hz]
    simp only [Bool.false_eq_true, if_false]
    by_cases hs : truthyStr strat = true
    · have hznone : zuid = none := by
        cases zuid with
        | none => rfl
        | some u =>
          unfold truthyStr at hz
          simp at hz
          exact absurd (by rw [hz]) h
      subst hznone
      simp [hs]
    · simp only [Bool.not_eq_true] at hs
      rw [hs]
      simp

lemma find?_append_singleton {l : List PortfolioSnapshot}
    {p : PortfolioSnapshot → Bool} {x : PortfolioSnapshot}
    (hl : ∀ y ∈ l, p y = false) (hx : p x = true) :
    (l ++ [x]).find? p = some x := by
  induction l with
  | nil => simp [List.find?, hx]
  | cons a rest ih =>
    have ha := hl a (by simp)
    simp only [List.cons_append, List.find?, ha]
    exact ih (fun y hy => hl y (by simp [hy]))

lemma replaceFirst_append_singleton {l : List PortfolioSnapshot}
    {p : PortfolioSnapshot → Bool} {x : PortfolioSnapshot}
    {f : PortfolioSnapshot → PortfolioSnapshot}
    (hl : ∀ y ∈ l, p y = false) (hx : p x = true) :
    replaceFirst (l ++ [x]) p f = l ++ [f x] := by
  induction l with
  | nil => simp [replaceFirst, hx]
  | cons a rest ih =>
    have ha := hl a (by simp)
    simp only [List.cons_append, replaceFirst, ha]
    rw [if_neg (by simp), List.append_eq, ih (fun y hy => hl y (by simp [hy]))]

lemma updateSnapRow_key (r : PortfolioSnapshot) (m : Metrics) :
    (updateSnapRow r m).snapshot_date = r.snapshot_date ∧
    (updateSnapRow r m).zerodha_user_id = r.zerodha_user_id ∧
    (updateSnapRow r m).trading_strategy = r.trading_strategy :=
  ⟨rfl, rfl, rfl⟩

lemma countKey_append {l1 l2 : List PortfolioSnapshot} {d : ℤ}
    {zuid strat : Option String} :
    countKey (l1 ++ l2) d zuid strat = countKey l1 d zuid strat + countKey l2 d zuid strat := by
  unfold countKey
  rw [List.filter_append, List.length_append]

lemma countKey_zero_of_dates {l : List PortfolioSnapshot} {d : ℤ}
    {zuid strat : Option String} (h : ∀ r ∈ l, r.snapshot_date ≠ d) :
    countKey l d zuid strat = 0 := by
  unfold countKey
  rw [List.filter_eq_nil_iff.mpr]
  · rfl
  · intro r hr
    simp [h r hr]

/-- C4 amended: starting from a state with *no* snapshot row at the
target date (so that the under-constrained lookup cannot be shadowed by
another scope's row at the same date) and a non-degenerate account
argument (not the empty string, which Python treats as falsy while SQL
stores it as non-NULL), two `create_snapshot` calls with the same
`(date, scope, strategy)` over an unchanged ledger leave exactly one
row for that key, and only one row was inserted in total: the second
call updates in place.  Without the no-row-at-that-date hypothesis the
claim fails (see the counterexample). -/
theorem materialize_idem_amended (db : DBState) (d : ℤ) (zuid strat : Option String)
    (accountIds : Option (List String)) (t1 t2 : ℤ)
    (hdate : ∀ r ∈ db.snapshots, r.snapshot_date ≠ d)
    (hzuid : zuid ≠ some "") :
    match createSnapshotTwice db d zuid strat accountIds t1 t2 with
    | .ok p => countKey p.1.snapshots d zuid strat = 1 ∧
        p.1.snapshots.length = db.snapshots.length + 1
    | .error _ => True := by
  cases hm : calculate_portfolio_metrics db d zuid accountIds with
  | error e =>
    unfold createSnapshotTwice create_snapshot
    simp [hm]
  | ok m =>
    have hfind : db.snapshots.find? (snapKeyFilter d zuid strat) = none :=
      List.find?_eq_none.mpr (fun r hr => by
        simp [snapKeyFilter_false_of_date (hdate r hr)])
    have hrun1 := @create_snapshot_notfound db d zuid strat accountIds t1 m hm hfind
    set db1 : DBState :=
      { trades := db.trades
        payins := db.payins
        snapshots := db.snapshots ++ [newSnapRow d m zuid strat]
        prices := storeSymbolLtps db.trades t1 } with hdb1
    have hm2 : calculate_portfolio_metrics db1 d zuid accountIds = .ok m := by
      rw [@metrics_congr db1 db d zuid accountIds rfl rfl]
      exact hm
    have hrowkey := @snapKeyFilter_newRow d zuid strat m hzuid
    have hfind2 : db1.snapshots.find? (snapKeyFilter d zuid strat) =
        some (newSnapRow d m zuid strat) := by
      rw [hdb1]
      exact find?_append_singleton
        (fun y hy => snapKeyFilter_false_of_date (hdate y hy)) hrowkey
    have hrun2 := create_snapshot_found (t := t2) hm2 hfind2
    unfold createSnapshotTwice
    simp only [hrun1, hrun2]
    have hrepl : replaceFirst db1.snapshots (snapKeyFilter d zuid strat)
        (fun _ => updateSnapRow (newSnapRow d m zuid strat) m) =
        db.snapshots ++ [updateSnapRow (newSnapRow d m zuid strat) m] := by
      rw [hdb1]
      exact replaceFirst_append_singleton
        (fun y hy => snapKeyFilter_false_of_date (hdate y hy)) hrowkey
    rw [hrepl]
    constructor
    · rw [countKey_append, countKey_zero_of_dates hdate]
      unfold countKey
      simp [List.filter, updateSnapRow, newSnapRow]
    · rw [List.length_append]
      rfl

/-- Witness state for C4 amended: an entirely empty database. -/
def witDbC4 : DBState where
  trades := []
  payins := []
  snapshots := []
  prices := []

/-- Witness for C4 amended: on an empty database, materializing
`(0, NULL account, NULL strategy)` twice leaves exactly one row for
that key and exactly one row in total. -/
theorem materialize_idem_amended_witness :
    match createSnapshotTwice witDbC4 0 none none none 1 2 with
    | .ok p => countKey p.1.snapshots 0 none none = 1 ∧
        p.1.snapshots.length = witDbC4.snapshots.length + 1
    | .error _ => True :=
  materialize_idem_amended witDbC4 0 none none none 1 2
    (by intro r hr; simp [witDbC4] at hr) (by simp)

/-! ## C3 : full replacement of the symbol-price cache -/

/-- "Symbol currently held by an OPEN trade". -/
def heldOpenSymbol (trades : List Trade) (s : String) : Prop :=
  ∃ tr ∈ trades, tr.status = .OPEN ∧ tr.symbol = s

/-- The cache-contents half of the claim exactly as stated: after any
materialize call, one fresh row exists per distinct symbol currently
held by an OPEN trade. -/
def symbolCacheClaim (db : DBState) (d : ℤ) (zuid strat : Option String)
    (accountIds : Option (List String)) (t : ℤ) : Prop :=
  match create_snapshot db d zuid strat accountIds t with
  | .ok p => ∀ s, heldOpenSymbol db.trades s → ∃ row ∈ p.1.prices, row.symbol = s
  | .error _ => True

/-- An OPEN trade that has never been synced: `current_price` NULL. -/
def cexTradeC3 : Trade := { cexTradeC6 with symbol := "GGG" }

/-- Counterexample state for C3. -/
def cexDbC3 : DBState where
  trades := [cexTradeC3]
  payins := []
  snapshots := []
  prices := [{ symbol := "OLD", ltp := 50, snapshot_taken_at := 0 }]

/-- C3 counterexample: a symbol held by an OPEN trade whose
`current_price` is NULL gets *no* row in the rebuilt
`SnapshotSymbolPrice` table (the SQL aggregation filters on
`current_price > 0`), so "exactly one fresh row per distinct symbol
currently held by an OPEN trade" fails. -/
theorem symbol_cache_claim_counterexample :
    ¬ symbolCacheClaim cexDbC3 0 none none none 7 := by
  obtain ⟨m, hm⟩ := metrics_ok_of_all_ok cexDbC3 0 none none
    (by
      intro t ht
      have heq : t = cexTradeC3 ∧ t.buy_date ≤ 0 := by
        simpa [cexDbC3, scopedTrades, targetAccountIds] using ht
      obtain ⟨heq, -⟩ := heq
      subst heq
      simp [calculate_profit_loss, cexTradeC3, cexTradeC6, Except.isOk, Except.toBool])
  have hfind : cexDbC3.snapshots.find? (snapKeyFilter 0 none none) = none := by
    simp [cexDbC3]
  have hrun := @create_snapshot_notfound cexDbC3 0 none none none 7 m hm hfind
  have hstore : storeSymbolLtps cexDbC3.trades 7 = [] := by
    simp [storeSymbolLtps, buildLtpDict, symbolLtpPairs, uniqueKeys, eligibleOpen,
      cexDbC3, cexTradeC3, cexTradeC6, List.filter]
  unfold symbolCacheClaim
  rw [hrun]
  intro hclaim
  obtain ⟨row, hrow, _⟩ := hclaim "GGG"
    ⟨cexTradeC3, by simp [cexDbC3], by simp [cexTradeC3, cexTradeC6], rfl⟩
  rw [show ({ trades := cexDbC3.trades
              payins := cexDbC3.payins
              snapshots := cexDbC3.snapshots ++ [newSnapRow 0 m none none]
              prices := storeSymbolLtps cexDbC3.trades 7 } : DBState).prices =
        storeSymbolLtps cexDbC3.trades 7 from rfl, hstore] at hrow
  simp at hrow

/-! ### Dictionary and aggregation lemmas for the symbol-price cache -/

/-- Keys of the modelled Python dict. -/
def dictKeys (m : List (String × ℚ)) : List String := m.map Prod.fst

lemma dictInsert_mem {m : List (String × ℚ)} {k : String} {v : ℚ} {x : String × ℚ}
    (h : x ∈ dictInsert m k v) : x = (k, v) ∨ x ∈ m := by
  unfold dictInsert at h
  split at h
  · obtain ⟨kv, hkv, hx⟩ := List.mem_map.mp h
    by_cases hk : (kv.1 == k) = true
    · rw [if_pos hk] at hx
      exact .inl hx.symm
    · rw [if_neg hk] at hx
      exact .inr (hx ▸ hkv)
  · rcases List.mem_append.mp h with h1 | h1
    · exact .inr h1
    · exact .inl (by simpa using h1)

lemma dictKeys_insert_of_any {m : List (String × ℚ)} {k : String} {v : ℚ}
    (h : m.any (fun kv => kv.1 == k) = true) :
    dictKeys (dictInsert m k v) = dictKeys m := by
  unfold dictInsert dictKeys
  rw [if_pos h, List.map_map]
  apply List.map_congr_left
  intro kv _
  by_cases hk : (kv.1 == k) = true
  · simp only [Function.comp, hk, if_true]
    exact (eq_of_beq hk).symm
  · simp [Function.comp, hk]

lemma dictKeys_insert_of_not_any {m : List (String × ℚ)} {k : String} {v : ℚ}
    (h : m.any (fun kv => kv.1 == k) = false) :
    dictKeys (dictInsert m k v) = dictKeys m ++ [k] := by
  unfold dictInsert dictKeys
  rw [if_neg (by simp [h])]
  simp

lemma mem_dictKeys_insert {m : List (String × ℚ)} {k : String} {v : ℚ} {s : String}
    (h : s ∈ dictKeys m ∨ s = k) : s ∈ dictKeys (dictInsert m k v) := by
  by_cases hany : m.any (fun kv => kv.1 == k) = true
  · rw [dictKeys_insert_of_any hany]
    rcases h with h | h
    · exact h
    · subst h
      obtain ⟨kv, hkv, hk⟩ := List.any_eq_true.mp hany
      have : kv.1 = s := eq_of_beq hk
      exact this ▸ List.mem_map.mpr ⟨kv, hkv, rfl⟩
  · rw [Bool.not_eq_true] at hany
    rw [dictKeys_insert_of_not_any hany]
    rcases h with h | h
    · exact List.mem_append.mpr (.inl h)
    · exact List.mem_append.mpr (.inr (by simp [h]))

lemma dictKeys_nodup_insert {m : List (String × ℚ)} {k : String} {v : ℚ}
    (h : (dictKeys m).Nodup) : (dictKeys (dictInsert m k v)).Nodup := by
  by_cases hany : m.any (fun kv => kv.1 == k) = true
  · rw [dictKeys_insert_of_any hany]
    exact h
  · rw [Bool.not_eq_true] at hany
    rw [dictKeys_insert_of_not_any hany]
    rw [List.nodup_append]
    refine ⟨h, by simp, ?_⟩
    intro a ha hak
    rw [List.mem_singleton] at hak
    subst hak
    obtain ⟨kv, hkv, hfst⟩ := List.mem_map.mp ha
    have htrue : m.any (fun kv2 => kv2.1 == a) = true :=
      List.any_eq_true.mpr ⟨kv, hkv, by simp [hfst]⟩
    rw [htrue] at hany
    exact absurd hany (by simp)

/-- The fold body of `buildLtpDict`. -/
def ltpFold (acc : List (String × ℚ)) (p : String × ℚ) : List (String × ℚ) :=
  if pyUpper p.1 == "" || p.2 == 0 then acc
  else dictInsert acc (pyUpper p.1) p.2

lemma buildLtpDict_eq_foldl (pairs : List (String × ℚ)) :
    buildLtpDict pairs = pairs.foldl ltpFold [] := rfl

lemma ltpFold_mem_fold :
    ∀ (pairs acc : List (String × ℚ)) (x : String × ℚ),
      x ∈ pairs.foldl ltpFold acc →
      x ∈ acc ∨ ∃ p ∈ pairs, x = (pyUpper p.1, p.2) ∧ pyUpper p.1 ≠ "" ∧ p.2 ≠ 0 := by
  intro pairs
  induction pairs with
  | nil =>
    intro acc x h
    exact .inl h
  | cons p ps ih =>
    intro acc x h
    rw [List.foldl_cons] at h
    rcases ih (ltpFold acc p) x h with h1 | ⟨p', hp', hx⟩
    · unfold ltpFold at h1
      by_cases hskip : (pyUpper p.1 == "" || p.2 == 0) = true
      · rw [if_pos hskip] at h1
        exact .inl h1
      · rw [if_neg hskip] at h1
        rcases dictInsert_mem h1 with h2 | h2
        · refine .inr ⟨p, by simp, h2, ?_, ?_⟩
          · intro hu
            exact hskip (by simp [hu])
          · intro hz
            exact hskip (by simp [hz])
        · exact .inl h2
    · exact .inr ⟨p', by simp [hp'], hx⟩

lemma ltpFold_keys_nodup :
    ∀ (pairs acc : List (String × ℚ)), (dictKeys acc).Nodup →
      (dictKeys (pairs.foldl ltpFold acc)).Nodup := by
  intro pairs
  induction pairs with
  | nil =>
    intro acc h
    exact h
  | cons p ps ih =>
    intro acc h
    rw [List.foldl_cons]
    refine ih (ltpFold acc p) ?_
    unfold ltpFold
    by_cases hskip : (pyUpper p.1 == "" || p.2 == 0) = true
    · rw [if_pos hskip]
      exact h
    · rw [if_neg hskip]
      exact dictKeys_nodup_insert h

lemma ltpFold_keys_complete :
    ∀ (pairs acc : List (String × ℚ)) (s : String),
      (s ∈ dictKeys acc ∨ ∃ p ∈ pairs, pyUpper p.1 = s ∧ pyUpper p.1 ≠ "" ∧ p.2 ≠ 0) →
      s ∈ dictKeys (pairs.foldl ltpFold acc) := by
  intro pairs
  induction pairs with
  | nil =>
    intro acc s h
    rcases h with h | ⟨p, hp, _⟩
    · exact h
    · simp at hp
  | cons p ps ih =>
    intro acc s h
    rw [List.foldl_cons]
    refine ih (ltpFold acc p) s ?_
    rcases h with h | ⟨p', hp', hs, hne, hnz⟩
    · left
      unfold ltpFold
      by_cases hskip : (pyUpper p.1 == "" || p.2 == 0) = true
      · rw [if_pos hskip]
        exact h
      · rw [if_neg hskip]
        exact mem_dictKeys_insert (.inl h)
    · rcases List.mem_cons.mp hp' with hpp | hpp
      · subst hpp
        left
        unfold ltpFold
        rw [if_neg (by simp [hne, hnz])]
        exact mem_dictKeys_insert (.inr hs.symm)
      · exact .inr ⟨p', hpp, hs, hne, hnz⟩

lemma mem_uniqueKeys {s : String} : ∀ {l : List String}, s ∈ uniqueKeys l ↔ s ∈ l := by
  intro l
  induction l using uniqueKeys.induct with
  | case1 => simp [uniqueKeys]
  | case2 a rest ih =>
    rw [uniqueKeys]
    simp only [List.mem_cons]
    constructor
    · rintro (h | h)
      · exact .inl h
      · exact .inr (List.mem_filter.mp (ih.mp h)).1
    · rintro (h | h)
      · exact .inl h
      · by_cases ha : s = a
        · exact .inl ha
        · exact .inr (ih.mpr (List.mem_filter.mpr ⟨h, by simp [ha]⟩))

lemma foldlMax_mem : ∀ (ps : List ℚ) (p : ℚ), ps.foldl max p ∈ p :: ps := by
  intro ps
  induction ps with
  | nil =>
    intro p
    simp
  | cons q qs ih =>
    intro p
    have h := ih (max p q)
    rw [List.foldl_cons]
    rcases List.mem_cons.mp h with h1 | h1
    · rcases max_choice p q with hm | hm
      · rw [h1.trans hm]
        simp
      · rw [h1.trans hm]
        simp
    · simp [h1]

lemma mem_eligibleOpen {trades : List Trade} {t : Trade} :
    t ∈ eligibleOpen trades ↔
      t ∈ trades ∧ t.status = .OPEN ∧ ∃ cp, t.current_price = some cp ∧ 0 < cp := by
  unfold eligibleOpen
  rw [List.mem_filter]
  constructor
  · rintro ⟨hmem, hcond⟩
    rw [Bool.and_eq_true] at hcond
    obtain ⟨hst, hcp⟩ := hcond
    refine ⟨hmem, by simpa using hst, ?_⟩
    cases hcpv : t.current_price with
    | none => rw [hcpv] at hcp; simp at hcp
    | some cp =>
      rw [hcpv] at hcp
      exact ⟨cp, rfl, by simpa using hcp⟩
  · rintro ⟨hmem, hst, cp, hcp, hpos⟩
    refine ⟨hmem, ?_⟩
    rw [Bool.and_eq_true]
    exact ⟨by simp [hst], by rw [hcp]; simpa using hpos⟩

lemma groupMax_mem {trades : List Trade} {s : String}
    (hne : (trades.filter (fun t => t.symbol == s)).filterMap (·.current_price) ≠ []) :
    groupMax trades s ∈ (trades.filter (fun t => t.symbol == s)).filterMap (·.current_price) := by
  unfold groupMax
  cases hl : (trades.filter (fun t => t.symbol == s)).filterMap (·.current_price) with
  | nil => exact absurd hl hne
  | cons p ps =>
    simp only [hl]
    exact foldlMax_mem ps p

/-- Any value in the per-symbol aggregation group is some eligible
trade's positive `current_price`. -/
lemma group_value_origin {trades : List Trade} {s : String} {v : ℚ}
    (h : v ∈ ((eligibleOpen trades).filter
      (fun t => t.symbol == s)).filterMap (fun t => t.current_price)) :
    ∃ tr ∈ trades, tr.status = .OPEN ∧ tr.symbol = s ∧ tr.current_price = some v ∧ 0 < v := by
  obtain ⟨tr, htr, hcp⟩ := List.mem_filterMap.mp h
  obtain ⟨helig, hsym⟩ := List.mem_filter.mp htr
  obtain ⟨hmem, hopen, cp, hcp', hpos⟩ := mem_eligibleOpen.mp helig
  have hv : cp = v := by
    rw [hcp'] at hcp
    simpa using hcp
  subst hv
  exact ⟨tr, hmem, hopen, by simpa using hsym, hcp', hpos⟩

lemma pairs_mem {trades : List Trade} {p : String × ℚ}
    (h : p ∈ symbolLtpPairs trades) :
    ∃ tr ∈ trades, tr.status = .OPEN ∧ tr.symbol = p.1 ∧
      tr.current_price = some p.2 ∧ 0 < p.2 := by
  obtain ⟨s, hs, hp⟩ := List.mem_map.mp h
  have hsl : s ∈ (eligibleOpen trades).map (·.symbol) := mem_uniqueKeys.mp hs
  obtain ⟨tr0, htr0, hsym0⟩ := List.mem_map.mp hsl
  obtain ⟨_, _, cp0, hcp0, hpos0⟩ := mem_eligibleOpen.mp htr0
  have hne : ((eligibleOpen trades).filter (fun t => t.symbol == s)).filterMap
      (·.current_price) ≠ [] := by
    intro hnil
    have : cp0 ∈ ((eligibleOpen trades).filter (fun t => t.symbol == s)).filterMap
        (·.current_price) :=
      List.mem_filterMap.mpr ⟨tr0, List.mem_filter.mpr ⟨htr0, by simp [hsym0]⟩, hcp0⟩
    rw [hnil] at this
    simp at this
  have hmax := @groupMax_mem (eligibleOpen trades) s hne
  obtain ⟨tr, hmem, hopen, hsym, hcp, hpos⟩ := group_value_origin hmax
  subst hp
  exact ⟨tr, hmem, hopen, hsym, hcp, hpos⟩

lemma pairs_complete {trades : List Trade} {tr : Trade}
    (h : tr ∈ trades) (hopen : tr.status = .OPEN) {cp : ℚ}
    (hcp : tr.current_price = some cp) (hpos : 0 < cp) :
    ∃ v, (tr.symbol, v) ∈ symbolLtpPairs trades ∧ 0 < v := by
  have helig : tr ∈ eligibleOpen trades :=
    mem_eligibleOpen.mpr ⟨h, hopen, cp, hcp, hpos⟩
  have hsym : tr.symbol ∈ (eligibleOpen trades).map (·.symbol) :=
    List.mem_map.mpr ⟨tr, helig, rfl⟩
  have hmemu : tr.symbol ∈ uniqueKeys ((eligibleOpen trades).map (·.symbol)) :=
    mem_uniqueKeys.mpr hsym
  refine ⟨groupMax (eligibleOpen trades) tr.symbol,
    List.mem_map.mpr ⟨tr.symbol, hmemu, rfl⟩, ?_⟩
  have hne : ((eligibleOpen trades).filter (fun t => t.symbol == tr.symbol)).filterMap
      (·.current_price) ≠ [] := by
    intro hnil
    have : cp ∈ ((eligibleOpen trades).filter (fun t => t.symbol == tr.symbol)).filterMap
        (·.current_price) :=
      List.mem_filterMap.mpr ⟨tr, List.mem_filter.mpr ⟨helig, by simp⟩, hcp⟩
    rw [hnil] at this
    simp at this
  obtain ⟨_, _, _, _, _, hpos'⟩ := group_value_origin (groupMax_mem hne)
  exact hpos'

/-- C3 amended: every materialize call — update or insert branch alike —
replaces the whole `SnapshotSymbolPrice` table with the freshly built
rows; those rows all carry the single batch timestamp, have pairwise
distinct (upper-cased) symbols, and each carries the positive
`current_price` of one of that symbol's OPEN trades (the per-exact-symbol
SQL `MAX`); conversely every symbol held by an OPEN trade *with a truthy
positive current_price* gets a row — symbols whose open trades have no
positive price are dropped, which is what breaks the original claim. -/
theorem symbol_cache_amended (db : DBState) (d : ℤ) (zuid strat : Option String)
    (accountIds : Option (List String)) (t : ℤ) :
    (match create_snapshot db d zuid strat accountIds t with
     | .ok p => p.1.prices = storeSymbolLtps db.trades t
     | .error _ => True) ∧
    (∀ row ∈ storeSymbolLtps db.trades t,
      row.snapshot_taken_at = t ∧ 0 < row.ltp ∧
      ∃ tr ∈ db.trades, tr.status = .OPEN ∧ pyUpper tr.symbol = row.symbol ∧
        tr.current_price = some row.ltp) ∧
    ((storeSymbolLtps db.trades t).map (·.symbol)).Nodup ∧
    (∀ tr ∈ db.trades, tr.status = .OPEN →
      ∀ cp, tr.current_price = some cp → 0 < cp → pyUpper tr.symbol ≠ "" →
      ∃ row ∈ storeSymbolLtps db.trades t, row.symbol = pyUpper tr.symbol) := by
  refine ⟨?_, ?_, ?_, ?_⟩
  · cases hm : calculate_portfolio_metrics db d zuid accountIds with
    | error e =>
      unfold create_snapshot
      rw [hm]
      exact trivial
    | ok m =>
      cases hf : db.snapshots.find? (snapKeyFilter d zuid strat) with
      | none =>
        rw [create_snapshot_notfound hm hf]
      | some r =>
        rw [create_snapshot_found hm hf]
  · intro row hrow
    unfold storeSymbolLtps at hrow
    obtain ⟨kv, hkv, hrow'⟩ := List.mem_map.mp hrow
    rw [buildLtpDict_eq_foldl] at hkv
    rcases ltpFold_mem_fold _ [] kv hkv with h0 | ⟨p, hp, hkvp, hne, hnz⟩
    · simp at h0
    · obtain ⟨tr, hmem, hopen, hsym, hcp, hpos⟩ := pairs_mem hp
      subst hrow'
      refine ⟨rfl, by simpa [hkvp] using hpos, tr, hmem, hopen, ?_, ?_⟩
      · rw [hsym, hkvp]
      · rw [hcp, hkvp]
  · unfold storeSymbolLtps
    rw [List.map_map]
    have : ((fun r : SnapshotSymbolPrice => r.symbol) ∘
        (fun p : String × ℚ =>
          ({ symbol := p.1, ltp := p.2, snapshot_taken_at := t } : SnapshotSymbolPrice))) =
        Prod.fst := rfl
    rw [this, buildLtpDict_eq_foldl]
    exact ltpFold_keys_nodup _ [] (by simp [dictKeys])
  · intro tr hmem hopen cp hcp hpos hupper
    obtain ⟨v, hv, hvpos⟩ := pairs_complete hmem hopen hcp hpos
    have hkey : pyUpper tr.symbol ∈ dictKeys (buildLtpDict (symbolLtpPairs db.trades)) := by
      rw [buildLtpDict_eq_foldl]
      exact ltpFold_keys_complete _ [] _
        (.inr ⟨(tr.symbol, v), hv, rfl, hupper, by simpa using hvpos.ne'⟩)
    obtain ⟨kv, hkv, hfst⟩ := List.mem_map.mp hkey
    refine ⟨{ symbol := kv.1, ltp := kv.2, snapshot_taken_at := t }, ?_, by simpa using hfst⟩
    unfold storeSymbolLtps
    exact List.mem_map.mpr ⟨kv, hkv, rfl⟩

/-- Witness trade for C3 amended: OPEN with a synced, positive price. -/
def witTradeC3 : Trade := { cexTradeC6 with symbol := "HHH", current_price := some 55 }

/-- Witness state for C3 amended. -/
def witDbC3 : DBState where
  trades := [witTradeC3]
  payins := []
  snapshots := []
  prices := []

/-- Witness for C3 amended at a concrete one-trade state: the symbol of
the synced OPEN trade gets a cache row carrying the batch timestamp. -/
theorem symbol_cache_amended_witness :
    (storeSymbolLtps witDbC3.trades 9 = [{ symbol := "HHH", ltp := 55, snapshot_taken_at := 9 }]) ∧
    ({ symbol := "HHH", ltp := (55 : ℚ), snapshot_taken_at := (9 : ℤ) } :
      SnapshotSymbolPrice).snapshot_taken_at = 9 := by
  have hstore : storeSymbolLtps witDbC3.trades 9 =
      [{ symbol := "HHH", ltp := 55, snapshot_taken_at := 9 }] := by
    simp [storeSymbolLtps, buildLtpDict, symbolLtpPairs, uniqueKeys, eligibleOpen,
      groupMax, witDbC3, witTradeC3, cexTradeC6, List.filter, dictInsert, pyUpper]
  refine ⟨hstore, ?_⟩
  have hmem : ({ symbol := "HHH", ltp := (55 : ℚ), snapshot_taken_at := (9 : ℤ) } :
      SnapshotSymbolPrice) ∈ storeSymbolLtps witDbC3.trades 9 := by
    rw [hstore]
    simp
  exact ((symbol_cache_amended witDbC3 0 none none none 9).2.1 _ hmem).1

/-! ## XIRR solver analysis

The two loops only ever return values inside `[-0.99, 10]`: Newton
starts at the guess and only adopts a `new_rate` after the explicit
bounds check, and bisection returns midpoints of sub-intervals of the
initial bracket.  Bisection always terminates with `some` within 100
iterations because the interval halves every round.  Neither loop
re-checks the residual on its small-step/narrow-interval exits, which
is what makes the claimed `|NPV| < 1e-4` bound fail. -/

lemma newtonLoop_mem (pv pvd : ℝ → ℝ) :
    ∀ (fuel : ℕ) (rate : ℝ), -(99/100) ≤ rate → rate ≤ 10 →
      newtonLoop pv pvd fuel rate = none ∨
      ∃ r, newtonLoop pv pvd fuel rate = some r ∧ -(99/100) ≤ r ∧ r ≤ 10 := by
  intro fuel
  induction fuel with
  | zero =>
    intro rate h1 h2
    exact .inl rfl
  | succ f ih =>
    intro rate h1 h2
    simp only [newtonLoop]
    by_cases hpv : |pv rate| < tolXirr
    · exact .inr ⟨rate, by rw [if_pos hpv], h1, h2⟩
    · rw [if_neg hpv]
      by_cases hpvd : |pvd rate| < tolXirr
      · rw [if_pos hpvd]
        exact .inl rfl
      · rw [if_neg hpvd]
        by_cases hb : rate - pv rate / pvd rate < -(99/100) ∨ rate - pv rate / pvd rate > 10
        · rw [if_pos hb]
          exact .inl rfl
        · rw [if_neg hb]
          push_neg at hb
          by_cases hsmall : |rate - pv rate / pvd rate - rate| < tolXirr
          · exact .inr ⟨rate - pv rate / pvd rate, by rw [if_pos hsmall], hb.1, hb.2⟩
          · rw [if_neg hsmall]
            exact ih (rate - pv rate / pvd rate) hb.1 hb.2

lemma bisectLoop_mem (pv : ℝ → ℝ) :
    ∀ (fuel : ℕ) (low high : ℝ), -(99/100) ≤ low → high ≤ 10 → low ≤ high →
      bisectLoop pv fuel low high = none ∨
      ∃ r, bisectLoop pv fuel low high = some r ∧ -(99/100) ≤ r ∧ r ≤ 10 := by
  intro fuel
  induction fuel with
  | zero =>
    intro low high h1 h2 h3
    exact .inl rfl
  | succ f ih =>
    intro low high h1 h2 h3
    simp only [bisectLoop]
    have hml : low ≤ (low + high) / 2 := by linarith
    have hmh : (low + high) / 2 ≤ high := by linarith
    by_cases hpv : |pv ((low + high) / 2)| < tolXirr
    · exact .inr ⟨(low + high) / 2, by rw [if_pos hpv], by linarith, by linarith⟩
    · rw [if_neg hpv]
      by_cases hgt : pv ((low + high) / 2) > 0
      · simp only [if_pos hgt]
        by_cases hw : high - (low + high) / 2 < tolXirr
        · exact .inr ⟨(low + high) / 2, by rw [if_pos hw], by linarith, by linarith⟩
        · rw [if_neg hw]
          exact ih ((low + high) / 2) high (by linarith) h2 hmh
      · simp only [if_neg hgt]
        by_cases hw : (low + high) / 2 - low < tolXirr
        · exact .inr ⟨(low + high) / 2, by rw [if_pos hw], by linarith, by linarith⟩
        · rw [if_neg hw]
          exact ih low ((low + high) / 2) h1 (by linarith) hml

lemma bisectLoop_some (pv : ℝ → ℝ) :
    ∀ (fuel : ℕ) (low high : ℝ), low ≤ high → high - low < tolXirr * 2 ^ fuel →
      ∃ r, bisectLoop pv (fuel + 1) low high = some r := by
  have htol : (0 : ℝ) < tolXirr := by norm_num [tolXirr]
  intro fuel
  induction fuel with
  | zero =>
    intro low high hle hw
    rw [pow_zero, mul_one] at hw
    simp only [bisectLoop]
    by_cases hpv : |pv ((low + high) / 2)| < tolXirr
    · exact ⟨(low + high) / 2, by rw [if_pos hpv]⟩
    · rw [if_neg hpv]
      by_cases hgt : pv ((low + high) / 2) > 0
      · simp only [if_pos hgt]
        rw [if_pos (by linarith)]
        exact ⟨(low + high) / 2, rfl⟩
      · simp only [if_neg hgt]
        rw [if_pos (by linarith)]
        exact ⟨(low + high) / 2, rfl⟩
  | succ f ih =>
    intro low high hle hw
    rw [pow_succ] at hw
    simp only [bisectLoop]
    by_cases hpv : |pv ((low + high) / 2)| < tolXirr
    · exact ⟨(low + high) / 2, by rw [if_pos hpv]⟩
    · rw [if_neg hpv]
      by_cases hgt : pv ((low + high) / 2) > 0
      · simp only [if_pos hgt]
        by_cases hnarrow : high - (low + high) / 2 < tolXirr
        · rw [if_pos hnarrow]
          exact ⟨(low + high) / 2, rfl⟩
        · rw [if_neg hnarrow]
          exact ih ((low + high) / 2) high (by linarith) (by linarith)
      · simp only [if_neg hgt]
        by_cases hnarrow : (low + high) / 2 - low < tolXirr
        · rw [if_pos hnarrow]
          exact ⟨(low + high) / 2, rfl⟩
        · rw [if_neg hnarrow]
          exact ih low ((low + high) / 2) (by linarith) (by linarith)

/-- Reduction of `calculate_xirr` past its guards. -/
lemma calculate_xirr_eq_match (cfs : List ℚ) (ds : List ℤ)
    (hne1 : cfs ≠ []) (hne2 : ds ≠ []) (hlen : cfs.length = ds.length)
    (h2 : 2 ≤ cfs.length) :
    calculate_xirr cfs ds (1/10) =
      match newtonLoop (presentValue cfs ds (firstDate ds))
          (presentValueDeriv cfs ds (firstDate ds)) 100 (1/10) with
      | some r => some r
      | none => bisectLoop (presentValue cfs ds (firstDate ds)) 100 (-(99/100)) 10 := by
  unfold calculate_xirr
  rw [if_neg (by simp [hne1, hne2, hlen]), if_neg (by omega)]

/-- Under a present value everywhere below −1 on the bracket, the solver
still returns `some` rate inside the bracket — necessarily a non-root. -/
lemma calculate_xirr_bad (cfs : List ℚ) (ds : List ℤ)
    (hne1 : cfs ≠ []) (hne2 : ds ≠ []) (hlen : cfs.length = ds.length)
    (h2 : 2 ≤ cfs.length)
    (H : ∀ r, -(99/100) ≤ r → r ≤ 10 →
      presentValue cfs ds (firstDate ds) r < -1) :
    ∃ r, calculate_xirr cfs ds (1/10) = some r ∧
      -(99/100) ≤ r ∧ r ≤ 10 ∧ presentValue cfs ds (firstDate ds) r < -1 := by
  rw [calculate_xirr_eq_match cfs ds hne1 hne2 hlen h2]
  cases hn : newtonLoop (presentValue cfs ds (firstDate ds))
      (presentValueDeriv cfs ds (firstDate ds)) 100 (1/10) with
  | some r =>
    rcases newtonLoop_mem (presentValue cfs ds (firstDate ds))
        (presentValueDeriv cfs ds (firstDate ds)) 100 (1/10)
        (by norm_num) (by norm_num) with h | ⟨r', hr', hb1, hb2⟩
    · rw [hn] at h
      cases h
    · rw [hn] at hr'
      cases hr'
      exact ⟨r, rfl, hb1, hb2, H r hb1 hb2⟩
  | none =>
    have hw : (10 : ℝ) - (-(99/100)) < tolXirr * 2 ^ 99 := by
      norm_num [tolXirr]
    obtain ⟨r, hr⟩ := bisectLoop_some (presentValue cfs ds (firstDate ds)) 99
      (-(99/100)) 10 (by norm_num) hw
    have hr100 : bisectLoop (presentValue cfs ds (firstDate ds)) 100 (-(99/100)) 10 = some r := hr
    rcases bisectLoop_mem (presentValue cfs ds (firstDate ds)) 100 (-(99/100)) 10
        (by norm_num) (by norm_num) (by norm_num) with h | ⟨r', hr', hb1, hb2⟩
    · rw [h] at hr100
      cases hr100
    · rw [hr100] at hr'
      cases hr'
      exact ⟨r, hr100, hb1, hb2, H r hb1 hb2⟩

/-- The concrete present value of the C1 counterexample schedule:
flows `[1, −100000]` at days `[0, 365]` from reference day 0, so the
exponents are exactly 0 and 1. -/
lemma presentValue_c1 (r : ℝ) :
    presentValue [1, -100000] [0, 365] 0 r = 1 - 100000 / (1 + r) := by
  unfold presentValue
  simp only [List.zip_cons_cons, List.zip_nil_right, List.map_cons, List.map_nil,
    List.sum_cons, List.sum_nil]
  norm_num
  try ring

lemma presentValue_c1_neg (r : ℝ) (h1 : -(99/100) ≤ r) (h2 : r ≤ 10) :
    presentValue [1, -100000] [0, 365] (firstDate [0, 365]) r < -1 := by
  have hfd : firstDate [(0 : ℤ), 365] = 0 := by
    simp [firstDate]
  rw [hfd, presentValue_c1]
  have hpos : (0 : ℝ) < 1 + r := by linarith
  have hle : 1 + r ≤ 11 := by linarith
  have hdiv : (100000 : ℝ) / 11 ≤ 100000 / (1 + r) := by
    gcongr
  have : (100000 : ℝ) / 11 > 9000 := by norm_num
  linarith

/-- The concrete present value of the C5 counterexample schedule:
flows `[-100, -100]` at days `[0, 365]`. -/
lemma presentValue_c5 (r : ℝ) :
    presentValue [-100, -100] [0, 365] 0 r = -100 - 100 / (1 + r) := by
  unfold presentValue
  simp only [List.zip_cons_cons, List.zip_nil_right, List.map_cons, List.map_nil,
    List.sum_cons, List.sum_nil]
  norm_num
  try ring

lemma presentValue_c5_neg (r : ℝ) (h1 : -(99/100) ≤ r) (_h2 : r ≤ 10) :
    presentValue [-100, -100] [0, 365] (firstDate [0, 365]) r < -1 := by
  have hfd : firstDate [(0 : ℤ), 365] = 0 := by
    simp [firstDate]
  rw [hfd, presentValue_c5]
  have hpos : (0 : ℝ) < 1 + r := by linarith
  have : (0 : ℝ) < 100 / (1 + r) := by positivity
  linarith

/-! ## C1 : residual bound of the XIRR solver -/

/-- The claim exactly as stated: every non-null return of
`calculate_xirr` (default guess) is an approximate root, with residual
NPV below `1e-4` measured from the earliest date. -/
def xirrResidualClaim (cash_flows : List ℚ) (dates : List ℤ) : Prop :=
  ∀ r, calculate_xirr cash_flows dates (1/10) = some r →
    |presentValue cash_flows dates (firstDate dates) r| < 1/10000

/-- C1 counterexample: the schedule `[1, −100000]` over `[day 0, day
365]` has 2 entries, spans 365 > 0 days and changes sign, yet its NPV
has no root in the solver's bracket `[-0.99, 10]` (it is below −1
everywhere there), so Newton cannot converge and bisection walks its
interval down to nothing and *returns the final midpoint anyway* — a
number whose |NPV| exceeds 1, a million times the claimed bound. -/
theorem xirr_residual_claim_counterexample :
    (([(1 : ℚ), -100000]).length = 2 ∧ ((365 : ℤ) - 0) > 0 ∧
      (1 : ℚ) > 0 ∧ (-100000 : ℚ) < 0) ∧
    ¬ xirrResidualClaim [1, -100000] [0, 365] := by
  refine ⟨⟨rfl, by norm_num, by norm_num, by norm_num⟩, ?_⟩
  intro hclaim
  obtain ⟨r, hr, hb1, hb2, hbad⟩ := calculate_xirr_bad [1, -100000] [0, 365]
    (by simp) (by simp) (by simp) (by simp) presentValue_c1_neg
  have hsmall := hclaim r hr
  have hgt : (1 : ℝ) < |presentValue [1, -100000] [0, 365] (firstDate [0, 365]) r| := by
    rw [abs_of_neg (by linarith)]
    linarith
  have : (1 : ℝ) < 1/10000 := lt_trans hgt hsmall
  norm_num at this

/-- C1 amended: with the default guess 0.1, every non-null value
`calculate_xirr` returns lies in the bracket `[-0.99, 10]`; the claimed
residual bound `|NPV| < 1e-4` holds on the solver's residual-check exits
but *not* in general — the small-Newton-step and
bisection-interval-exhausted exits return rates without re-checking the
residual, and when the NPV has no root in the bracket the returned rate
is not an approximate root at all. -/
theorem xirr_range_amended (cash_flows : List ℚ) (dates : List ℤ) :
    match calculate_xirr cash_flows dates (1/10) with
    | some r => -(99/100) ≤ r ∧ r ≤ 10
    | none => True := by
  unfold calculate_xirr
  by_cases hg1 : (cash_flows.isEmpty || dates.isEmpty ||
      !(cash_flows.length == dates.length)) = true
  · rw [if_pos hg1]
    exact trivial
  · rw [if_neg hg1]
    by_cases hg2 : cash_flows.length < 2
    · rw [if_pos hg2]
      exact trivial
    · rw [if_neg hg2]
      cases hn : newtonLoop (presentValue cash_flows dates (firstDate dates))
          (presentValueDeriv cash_flows dates (firstDate dates)) 100 (1/10) with
      | some r =>
        rcases newtonLoop_mem (presentValue cash_flows dates (firstDate dates))
            (presentValueDeriv cash_flows dates (firstDate dates)) 100 (1/10)
            (by norm_num) (by norm_num) with h | ⟨r', hr', hb1, hb2⟩
        · rw [hn] at h
          cases h
        · rw [hn] at hr'
          cases hr'
          simp only [hn]
          exact ⟨hb1, hb2⟩
      | none =>
        simp only [hn]
        cases hb : bisectLoop (presentValue cash_flows dates (firstDate dates)) 100
            (-(99/100)) 10 with
        | none => simp [hb]
        | some r =>
          rcases bisectLoop_mem (presentValue cash_flows dates (firstDate dates)) 100
              (-(99/100)) 10 (by norm_num) (by norm_num) (by norm_num) with h | ⟨r', hr', hb1, hb2⟩
          · rw [hb] at h
            cases h
          · rw [hb] at hr'
            cases hr'
            simp only [hb]
            exact ⟨hb1, hb2⟩

/-! ## C5 : the metrics XIRR field -/

/-- The simple-return fallback value
`(booked_pl + float_pl)/total_payin × 100` (0 when `total_payin ≤ 0`). -/
noncomputable def simpleReturnFallback (total_payin booked_pl float_pl : ℚ) : ℝ :=
  if total_payin > 0 then (((booked_pl + float_pl) / total_payin * 100 : ℚ) : ℝ) else 0

/-- The xirr field exactly as the claim states it: cash flows
`(−amount, date)` for *every* payin in scope plus the terminal
`(+portfolio_value, as_of)`, handed to the solver; the fallback if and
only if fewer than 2 valid entries remain (the NaN filter is an
identity here) or the solver returns null. -/
noncomputable def xirrFieldClaim (payins : List Payin) (portfolio_value : ℚ)
    (d : ℤ) (fallback : ℝ) : ℝ :=
  let flows := payins.map (fun p => (-p.amount, p.payin_date)) ++ [(portfolio_value, d)]
  if flows.length < 2 then fallback
  else
    match calculate_xirr (flows.map Prod.fst) (flows.map Prod.snd) (1/10) with
    | some r => r * 100
    | none => fallback

/-- C5 as stated, over the code's metrics result. -/
def xirrGateClaim (db : DBState) (d : ℤ) (zuid : Option String)
    (accountIds : Option (List String)) : Prop :=
  match calculate_portfolio_metrics db d zuid accountIds with
  | .ok m => m.xirr = xirrFieldClaim
      (scopedPayins db.payins d (targetAccountIds zuid accountIds))
      m.portfolio_value d
      (simpleReturnFallback m.total_payin m.booked_pl m.float_pl)
  | .error _ => True

/-- A payin of 100 on day 0. -/
def cexPayinC5 : Payin where
  payin_date := 0
  amount := 100
  number_of_shares := none
  zerodha_user_id := none

/-- A closed trade realizing a −200 loss. -/
def cexTradeC5 : Trade where
  symbol := "III"
  buy_date := 0
  buy_price := 3
  quantity := 100
  buy_amount := 300
  buy_charges := some 0
  sell_date := some 0
  sell_price := some 1
  sell_amount := none
  sell_charges := some 0
  status := .CLOSED
  zerodha_user_id := none
  current_price := none
  last_synced_at := none
  day_change := none
  day_change_percentage := none

/-- Counterexample state for C5: total payin 100, booked P/L −200, so the
portfolio value is −100 and the solver gate `total_portfolio > 0` fails. -/
def cexDbC5 : DBState where
  trades := [cexTradeC5]
  payins := [cexPayinC5]
  snapshots := []
  prices := []

/-- The code's metric fields at the C5 counterexample state. -/
lemma metrics_c5_fields :
    (calculate_portfolio_metrics cexDbC5 365 none none).map
      (fun m => (m.portfolio_value, m.total_payin, m.booked_pl, m.float_pl)) =
      .ok (-100, 100, -200, 0) ∧
    (calculate_portfolio_metrics cexDbC5 365 none none).map Metrics.xirr =
      .ok (((-200 : ℚ) : ℝ)) := by
  have hsp : scopedPayins cexDbC5.payins 365 (targetAccountIds none none) = [cexPayinC5] := by
    simp [scopedPayins, targetAccountIds, cexDbC5, cexPayinC5, List.filter]
  have hst : scopedTrades cexDbC5.trades 365 (targetAccountIds none none) = [cexTradeC5] := by
    simp [scopedTrades, targetAccountIds, cexDbC5, cexTradeC5, List.filter]
  have hb : bookedPlCalc [cexTradeC5] 365 = .ok (-200) := by
    simp [bookedPlCalc, calculate_profit_loss, cexTradeC5, sellDateLE]
    norm_num
  have hf : floatOpenCalc [cexTradeC5] = .ok (0, 0) := by
    simp [floatOpenCalc, cexTradeC5]
  constructor
  · unfold calculate_portfolio_metrics
    simp only [hsp, hst, hb, hf]
    norm_num [cexPayinC5, Except.map]
  · unfold calculate_portfolio_metrics
    simp only [hsp, hst, hb, hf]
    norm_num [cexPayinC5, Except.map]

/-- C5 counterexample: with one payin of 100 and a booked −200 loss
(portfolio value −100), the scoped flows `[(−100, day 0), (−100, day
365)]` are 2 valid entries and the solver returns a non-null rate in
`[-0.99, 10]` on them — yet the code never consults the solver (its
`total_portfolio > 0` gate fails) and returns the simple fallback −200,
which no `rate × 100` with `rate ≥ −0.99` can equal.  The claimed
"fallback iff < 2 valid entries or solver null" is therefore false. -/
theorem xirr_gate_claim_counterexample : ¬ xirrGateClaim cexDbC5 365 none none := by
  obtain ⟨hfields, hxirr⟩ := metrics_c5_fields
  unfold xirrGateClaim
  cases hm : calculate_portfolio_metrics cexDbC5 365 none none with
  | error e =>
    rw [hm] at hxirr
    simp [Except.map] at hxirr
  | ok m =>
    rw [hm] at hfields hxirr
    simp only [Except.map, Except.ok.injEq, Prod.mk.injEq] at hfields hxirr
    obtain ⟨hpv, htp, hbp, hfp⟩ := hfields
    intro hclaim0
    have hclaim : m.xirr = xirrFieldClaim
        (scopedPayins cexDbC5.payins 365 (targetAccountIds none none))
        m.portfolio_value 365
        (simpleReturnFallback m.total_payin m.booked_pl m.float_pl) := hclaim0
    rw [hxirr, hpv] at hclaim
    obtain ⟨r, hr, hb1, _, _⟩ := calculate_xirr_bad [-100, -100] [0, 365]
      (by simp) (by simp) (by simp) (by simp) presentValue_c5_neg
    rw [show scopedPayins cexDbC5.payins 365 (targetAccountIds none none) = [cexPayinC5] from by
      simp [scopedPayins, targetAccountIds, cexDbC5, cexPayinC5, List.filter]] at hclaim
    unfold xirrFieldClaim at hclaim
    simp only [List.map_cons, List.map_nil, List.cons_append, List.nil_append,
      List.length_cons, List.length_nil, cexPayinC5] at hclaim
    rw [if_neg (by norm_num)] at hclaim
    norm_num at hclaim
    rw [hr] at hclaim
    have hge : (-99 : ℝ) ≤ r * 100 := by nlinarith
    have hclaim2 : (-200 : ℝ) = r * 100 := hclaim
    linarith

/-- The xirr field as the code actually gates it: the solver is consulted
only when the scoped payins are non-empty, the portfolio value is
strictly positive, and some payin has a non-zero amount; in every other
case — and when the solver returns null — the simple-return fallback
(or 0 when `total_payin ≤ 0`) is used. -/
noncomputable def xirrFieldAmended (db : DBState) (d : ℤ) (zuid : Option String)
    (accountIds : Option (List String)) : ℝ :=
  let payins := scopedPayins db.payins d (targetAccountIds zuid accountIds)
  let total_payin : ℚ := (payins.map (·.amount)).sum
  let booked_pl := bookedSum (scopedTrades db.trades d (targetAccountIds zuid accountIds)) d
  let float_pl := floatSum (scopedTrades db.trades d (targetAccountIds zuid accountIds))
  let portfolio_value := total_payin + booked_pl + float_pl
  let payin_list := payins.filter (fun p => !(p.amount == 0))
  if !payins.isEmpty ∧ portfolio_value > 0 then
    if !payin_list.isEmpty then
      match calculate_portfolio_xirr payin_list portfolio_value d with
      | some v => v
      | none => simpleReturnFallback total_payin booked_pl float_pl
    else simpleReturnFallback total_payin booked_pl float_pl
  else simpleReturnFallback total_payin booked_pl float_pl

/-- C5 amended: the metrics `xirr` field equals the gated rule of
`xirrFieldAmended` — built from the scoped payins, the booked/float
sums and the portfolio value; in particular the flow list handed to the
solver is `(−amount, date)` per non-zero payin plus the terminal
`(+portfolio_value, as_of)`, but only behind the
`payins ≠ [] ∧ portfolio_value > 0` gate that the original claim
omitted. -/
theorem xirr_gate_amended (db : DBState) (d : ℤ) (zuid : Option String)
    (accountIds : Option (List String)) :
    match calculate_portfolio_metrics db d zuid accountIds with
    | .ok m => m.xirr = xirrFieldAmended db d zuid accountIds
    | .error _ => True := by
  unfold calculate_portfolio_metrics xirrFieldAmended
  cases hb : bookedPlCalc (scopedTrades db.trades d (targetAccountIds zuid accountIds)) d with
  | error e => simp [hb]
  | ok b =>
    cases hf : floatOpenCalc (scopedTrades db.trades d (targetAccountIds zuid accountIds)) with
    | error e => simp [hb, hf]
    | ok fo =>
      obtain ⟨f, o⟩ := fo
      have hbs := bookedPlCalc_ok_eq hb
      have hfs := (floatOpenCalc_ok_eq hf).1
      have hcast : ∀ tp b fl : ℚ,
          ((if tp > 0 then (b + fl) / tp * 100 else 0 : ℚ) : ℝ) =
            simpleReturnFallback tp b fl := by
        intro tp b fl
        unfold simpleReturnFallback
        split_ifs <;> norm_num
      simp only [hb, hf]
      simp only at hfs
      subst hbs
      subst hfs
      simp only [hcast, simpleReturnFallback]

end TradingApp
